import Mathlib

/-!
Verification of the vehicle-speed pipeline (tracker, speed estimator,
line-crossing counter) against its specification.

The Python modules under `src/modules/` are embedded shallowly:
- bounding boxes carry integer pixel coordinates (as produced by
  `cv2.boundingRect`), modelled with `ℤ`;
- the overlap ratio (IoU) and the counter's arithmetic are modelled with `ℚ`
  (Python floats on these values behave like exact rationals for the
  properties stated here);
- the speed estimator's arithmetic, which involves a square root, is
  modelled with `ℝ`;
- Python dicts (insertion-ordered) are modelled as association lists;
  Python sets used only for membership are modelled as duplicate-free lists;
- the `ValueError` raised by `DistanceCalculator.pixel_to_meter` is
  modelled with `Except`.
-/

namespace VehicleSpeed

/-- An axis-aligned bounding box `(x, y, w, h)` in pixel coordinates,
as passed around by `vehicle_tracking.py`. -/
structure Box where
  x : ℤ
  y : ℤ
  w : ℤ
  h : ℤ
deriving DecidableEq, Repr

/-- `VehicleTracker._calculate_overlap` (vehicle_tracking.py, lines 23-57):
intersection-over-union of two boxes, 0 when the intersection rectangle is
empty by the strict test the code uses. -/
def calculateOverlap (bbox1 bbox2 : Box) : ℚ :=
  let xLeft := max bbox1.x bbox2.x
  let yTop := max bbox1.y bbox2.y
  let xRight := min (bbox1.x + bbox1.w) (bbox2.x + bbox2.w)
  let yBottom := min (bbox1.y + bbox1.h) (bbox2.y + bbox2.h)
  if xRight < xLeft ∨ yBottom < yTop then 0
  else
    let intersectionArea := (xRight - xLeft) * (yBottom - yTop)
    let bbox1Area := bbox1.w * bbox1.h
    let bbox2Area := bbox2.w * bbox2.h
    let unionArea := bbox1Area + bbox2Area - intersectionArea
    (intersectionArea : ℚ) / (unionArea : ℚ)

/-- Two boxes fail to overlap when the intersection rectangle has empty
interior on one of the axes. -/
def boxesDisjoint (a b : Box) : Prop :=
  min (a.x + a.w) (b.x + b.w) ≤ max a.x b.x ∨
  min (a.y + a.h) (b.y + b.h) ≤ max a.y b.y

lemma calculateOverlap_comm (a b : Box) : calculateOverlap a b = calculateOverlap b a := by
  unfold calculateOverlap
  rw [max_comm a.x, max_comm a.y, min_comm (a.x + a.w), min_comm (a.y + a.h)]
  ring_nf

lemma calculateOverlap_nonneg_le_one (a b : Box)
    (ha : 0 < a.w ∧ 0 < a.h) (hb : 0 < b.w ∧ 0 < b.h) :
    0 ≤ calculateOverlap a b ∧ calculateOverlap a b ≤ 1 := by
  obtain ⟨haw, hah⟩ := ha
  obtain ⟨hbw, hbh⟩ := hb
  unfold calculateOverlap
  set xLeft := max a.x b.x with hxL
  set yTop := max a.y b.y with hyT
  set xRight := min (a.x + a.w) (b.x + b.w) with hxR
  set yBottom := min (a.y + a.h) (b.y + b.h) with hyB
  by_cases hdeg : xRight < xLeft ∨ yBottom < yTop
  · simp [hdeg]
  · simp only [hdeg, if_false]
    push_neg at hdeg
    obtain ⟨hx, hy⟩ := hdeg
    have hwx : xRight - xLeft ≤ a.w := by
      have h1 : a.x ≤ xLeft := le_max_left _ _
      have h2 : xRight ≤ a.x + a.w := min_le_left _ _
      omega
    have hwy : yBottom - yTop ≤ a.h := by
      have h1 : a.y ≤ yTop := le_max_left _ _
      have h2 : yBottom ≤ a.y + a.h := min_le_left _ _
      omega
    have hwx' : xRight - xLeft ≤ b.w := by
      have h1 : b.x ≤ xLeft := le_max_right _ _
      have h2 : xRight ≤ b.x + b.w := min_le_right _ _
      omega
    have hwy' : yBottom - yTop ≤ b.h := by
      have h1 : b.y ≤ yTop := le_max_right _ _
      have h2 : yBottom ≤ b.y + b.h := min_le_right _ _
      omega
    have hinter0 : (0 : ℤ) ≤ (xRight - xLeft) * (yBottom - yTop) :=
      mul_nonneg (by omega) (by omega)
    have hinterA : (xRight - xLeft) * (yBottom - yTop) ≤ a.w * a.h :=
      mul_le_mul hwx hwy (by omega) (by omega)
    have hinterB : (xRight - xLeft) * (yBottom - yTop) ≤ b.w * b.h :=
      mul_le_mul hwx' hwy' (by omega) (by omega)
    have hunion : (0 : ℤ) < a.w * a.h + b.w * b.h - (xRight - xLeft) * (yBottom - yTop) := by
      have hbpos : (0 : ℤ) < b.w * b.h := mul_pos hbw hbh
      omega
    constructor
    · apply div_nonneg
      · exact_mod_cast hinter0
      · exact_mod_cast hunion.le
    · rw [div_le_one (by exact_mod_cast hunion)]
      have : (xRight - xLeft) * (yBottom - yTop) ≤
          a.w * a.h + b.w * b.h - (xRight - xLeft) * (yBottom - yTop) := by omega
      exact_mod_cast this

lemma calculateOverlap_self (a : Box) (ha : 0 < a.w ∧ 0 < a.h) :
    calculateOverlap a a = 1 := by
  obtain ⟨haw, hah⟩ := ha
  unfold calculateOverlap
  simp only [max_self, min_self]
  have hdeg : ¬(a.x + a.w < a.x ∨ a.y + a.h < a.y) := by omega
  simp only [hdeg, if_false]
  have h1 : a.x + a.w - a.x = a.w := by ring
  have h2 : a.y + a.h - a.y = a.h := by ring
  rw [h1, h2]
  have hne : ((a.w * a.h : ℤ) : ℚ) ≠ 0 := by
    have : (0 : ℤ) < a.w * a.h := mul_pos haw hah
    exact_mod_cast this.ne'
  have harith : (a.w : ℤ) * a.h + a.w * a.h - a.w * a.h = a.w * a.h := by ring
  rw [harith]
  exact div_self hne

lemma calculateOverlap_disjoint (a b : Box) (h : boxesDisjoint a b) :
    calculateOverlap a b = 0 := by
  unfold calculateOverlap
  by_cases hlt : min (a.x + a.w) (b.x + b.w) < max a.x b.x ∨
      min (a.y + a.h) (b.y + b.h) < max a.y b.y
  · simp only [hlt, if_true]
  · simp only [hlt, if_false]
    push_neg at hlt
    rcases h with h | h
    · have heq : min (a.x + a.w) (b.x + b.w) = max a.x b.x := le_antisymm h hlt.1
      rw [heq]
      simp
    · have heq : min (a.y + a.h) (b.y + b.h) = max a.y b.y := le_antisymm h hlt.2
      rw [heq]
      simp

/-- C6: for well-formed boxes (positive width and height), the tracker's
overlap ratio satisfies IoU ∈ [0,1], IoU(a,a) = 1, IoU(a,b) = 0 when the
boxes do not overlap, and IoU is symmetric; for boxes (0,0,10,10) and
(5,5,10,10) the IoU is 25/175. -/
theorem overlap_ratio_properties (a b : Box)
    (ha : 0 < a.w ∧ 0 < a.h) (hb : 0 < b.w ∧ 0 < b.h) :
    (0 ≤ calculateOverlap a b ∧ calculateOverlap a b ≤ 1) ∧
    calculateOverlap a a = 1 ∧
    (boxesDisjoint a b → calculateOverlap a b = 0) ∧
    calculateOverlap a b = calculateOverlap b a ∧
    calculateOverlap ⟨0, 0, 10, 10⟩ ⟨5, 5, 10, 10⟩ = 25 / 175 :=
  ⟨calculateOverlap_nonneg_le_one a b ha hb,
   calculateOverlap_self a ha,
   calculateOverlap_disjoint a b,
   calculateOverlap_comm a b,
   by norm_num [calculateOverlap]⟩

/-- Witness for C6 at the spec's concrete boxes. -/
theorem overlap_ratio_properties_witness :
    (0 ≤ calculateOverlap ⟨0, 0, 10, 10⟩ ⟨5, 5, 10, 10⟩ ∧
      calculateOverlap ⟨0, 0, 10, 10⟩ ⟨5, 5, 10, 10⟩ ≤ 1) ∧
    calculateOverlap ⟨0, 0, 10, 10⟩ ⟨0, 0, 10, 10⟩ = 1 ∧
    (boxesDisjoint ⟨0, 0, 10, 10⟩ ⟨5, 5, 10, 10⟩ →
      calculateOverlap ⟨0, 0, 10, 10⟩ ⟨5, 5, 10, 10⟩ = 0) ∧
    calculateOverlap ⟨0, 0, 10, 10⟩ ⟨5, 5, 10, 10⟩ =
      calculateOverlap ⟨5, 5, 10, 10⟩ ⟨0, 0, 10, 10⟩ ∧
    calculateOverlap ⟨0, 0, 10, 10⟩ ⟨5, 5, 10, 10⟩ = 25 / 175 :=
  overlap_ratio_properties ⟨0, 0, 10, 10⟩ ⟨5, 5, 10, 10⟩
    (by norm_num) (by norm_num)

/-! ### Association-list model of Python dicts

Python dicts preserve insertion order; assigning to an existing key keeps its
position, assigning to a fresh key appends, `del` removes the entry. -/

/-- First value bound to `k`, like `d[k]` guarded by a membership test. -/
def lookupKey {α : Type} : List (Nat × α) → Nat → Option α
  | [], _ => none
  | (k', v) :: rest, k => if k' = k then some v else lookupKey rest k

/-- `d[k] = v`: replace in place when the key exists, append otherwise. -/
def setKey {α : Type} : List (Nat × α) → Nat → α → List (Nat × α)
  | [], k, v => [(k, v)]
  | (k', v') :: rest, k, v =>
    if k' = k then (k, v) :: rest else (k', v') :: setKey rest k v

/-- `del d[k]`: drop the first entry bound to `k`. -/
def eraseKey {α : Type} : List (Nat × α) → Nat → List (Nat × α)
  | [], _ => []
  | (k', v') :: rest, k => if k' = k then rest else (k', v') :: eraseKey rest k

/-- Keys of the dict in insertion order. -/
def dictKeys {α : Type} (d : List (Nat × α)) : List Nat :=
  d.map Prod.fst

/-- Read-modify-write of one entry (`d[k]['field'] = ...` in the source);
no-op when the key is absent (the source only writes present keys). -/
def modifyKey {α : Type} (d : List (Nat × α)) (k : Nat) (f : α → α) : List (Nat × α) :=
  match lookupKey d k with
  | none => d
  | some v => setKey d k (f v)

/-- Python `set.add`: membership-preserving insert without duplicates. -/
def setInsert (s : List Nat) (k : Nat) : List Nat :=
  if k ∈ s then s else s ++ [k]

lemma dictKeys_nil {α : Type} : dictKeys ([] : List (Nat × α)) = [] := rfl

lemma dictKeys_cons {α : Type} (e : Nat × α) (rest : List (Nat × α)) :
    dictKeys (e :: rest) = e.1 :: dictKeys rest := rfl

lemma lookupKey_eq_none {α : Type} (d : List (Nat × α)) (k : Nat) :
    lookupKey d k = none ↔ k ∉ dictKeys d := by
  induction d with
  | nil => simp [lookupKey, dictKeys_nil]
  | cons e rest ih =>
    obtain ⟨k', v⟩ := e
    rw [dictKeys_cons, List.mem_cons]
    by_cases h : k' = k
    · subst h
      simp [lookupKey]
    · simp only [lookupKey, if_neg h, ih]
      constructor
      · intro hn hc
        rcases hc with hc | hc
        · exact h hc.symm
        · exact hn hc
      · intro hn hc
        exact hn (Or.inr hc)

lemma lookupKey_isSome {α : Type} (d : List (Nat × α)) (k : Nat) :
    (lookupKey d k).isSome ↔ k ∈ dictKeys d := by
  constructor
  · intro h
    by_contra hmem
    rw [(lookupKey_eq_none d k).2 hmem] at h
    simp at h
  · intro h
    cases hl : lookupKey d k with
    | none => exact absurd h ((lookupKey_eq_none d k).1 hl)
    | some v => simp

lemma lookupKey_mem {α : Type} {d : List (Nat × α)} {k : Nat} {v : α}
    (h : lookupKey d k = some v) : (k, v) ∈ d := by
  induction d with
  | nil => simp [lookupKey] at h
  | cons e rest ih =>
    obtain ⟨k', v'⟩ := e
    rw [show lookupKey ((k', v') :: rest) k =
        if k' = k then some v' else lookupKey rest k from rfl] at h
    by_cases hk : k' = k
    · rw [if_pos hk] at h
      injection h with hv
      subst hv
      subst hk
      exact List.mem_cons_self _ _
    · rw [if_neg hk] at h
      exact List.mem_cons_of_mem _ (ih h)

lemma dictKeys_setKey_mem {α : Type} (d : List (Nat × α)) (k : Nat) (v : α)
    (h : k ∈ dictKeys d) : dictKeys (setKey d k v) = dictKeys d := by
  induction d with
  | nil => simp [dictKeys_nil] at h
  | cons e rest ih =>
    obtain ⟨k', v'⟩ := e
    rw [dictKeys_cons, List.mem_cons] at h
    by_cases hk : k' = k
    · subst hk
      simp [setKey, dictKeys_cons]
    · rcases h with h | h
      · exact absurd h.symm hk
      · simp only [setKey, if_neg hk, dictKeys_cons, ih h]

lemma dictKeys_setKey_not_mem {α : Type} (d : List (Nat × α)) (k : Nat) (v : α)
    (h : k ∉ dictKeys d) : dictKeys (setKey d k v) = dictKeys d ++ [k] := by
  induction d with
  | nil => simp [setKey, dictKeys_nil, dictKeys_cons]
  | cons e rest ih =>
    obtain ⟨k', v'⟩ := e
    rw [dictKeys_cons, List.mem_cons] at h
    push_neg at h
    have hk : k' ≠ k := fun hc => h.1 hc.symm
    simp only [setKey, if_neg hk, dictKeys_cons, ih h.2, List.cons_append]

lemma dictKeys_eraseKey_sublist {α : Type} (d : List (Nat × α)) (k : Nat) :
    (dictKeys (eraseKey d k)).Sublist (dictKeys d) := by
  induction d with
  | nil => simp [eraseKey]
  | cons e rest ih =>
    obtain ⟨k', v'⟩ := e
    by_cases hk : k' = k
    · simp only [eraseKey, if_pos hk, dictKeys_cons]
      exact List.Sublist.cons _ (List.Sublist.refl _)
    · simp only [eraseKey, if_neg hk, dictKeys_cons]
      exact List.Sublist.cons₂ _ ih

lemma lookupKey_setKey_self {α : Type} (d : List (Nat × α)) (k : Nat) (v : α) :
    lookupKey (setKey d k v) k = some v := by
  induction d with
  | nil => simp [setKey, lookupKey]
  | cons e rest ih =>
    obtain ⟨k', v'⟩ := e
    by_cases hk : k' = k
    · simp [setKey, hk, lookupKey]
    · simp [setKey, hk, lookupKey, ih]

lemma lookupKey_setKey_other {α : Type} (d : List (Nat × α)) (k k' : Nat) (v : α)
    (h : k' ≠ k) : lookupKey (setKey d k v) k' = lookupKey d k' := by
  induction d with
  | nil => simp [setKey, lookupKey, Ne.symm h]
  | cons e rest ih =>
    obtain ⟨k'', v''⟩ := e
    by_cases hk : k'' = k
    · subst hk
      simp [setKey, lookupKey, Ne.symm h]
    · simp [setKey, hk, lookupKey, ih]

lemma lookupKey_eraseKey_other {α : Type} (d : List (Nat × α)) (k k' : Nat)
    (h : k' ≠ k) : lookupKey (eraseKey d k) k' = lookupKey d k' := by
  induction d with
  | nil => simp [eraseKey]
  | cons e rest ih =>
    obtain ⟨k'', v''⟩ := e
    by_cases hk : k'' = k
    · subst hk
      simp [eraseKey, lookupKey, Ne.symm h]
    · simp [eraseKey, hk, lookupKey, ih]

lemma lookupKey_eraseKey_self {α : Type} (d : List (Nat × α)) (k : Nat)
    (hnd : (dictKeys d).Nodup) : lookupKey (eraseKey d k) k = none := by
  induction d with
  | nil => simp [eraseKey, lookupKey]
  | cons e rest ih =>
    obtain ⟨k', v'⟩ := e
    rw [dictKeys_cons, List.nodup_cons] at hnd
    by_cases hk : k' = k
    · subst hk
      simp only [eraseKey, if_pos rfl]
      exact (lookupKey_eq_none rest k').2 hnd.1
    · simp only [eraseKey, if_neg hk, lookupKey, if_neg hk]
      exact ih hnd.2

/-! ### `VehicleTracker` (vehicle_tracking.py) -/

/-- One entry of `VehicleTracker.vehicles`: the per-vehicle record dict
`{'bbox', 'disappeared', 'crossed_line', 'first_seen'}` (with `first_seen`
itself `{'bbox', 'crossed_line'}`). -/
structure Vehicle where
  bbox : Box
  disappeared : Nat
  crossed_line : Bool
  first_seen_bbox : Box
  first_seen_crossed : Bool
deriving DecidableEq, Repr

/-- The mutable state of a `VehicleTracker` instance. -/
structure TrackerState where
  next_vehicle_id : Nat
  vehicles : List (Nat × Vehicle)
  max_disappeared : Nat
  min_overlap_ratio : ℚ
  crossed_vehicles : List Nat
deriving DecidableEq, Repr

/-- `VehicleTracker.__init__` with its default arguments
`max_disappeared=10, min_overlap_ratio=0.3`. -/
def initTracker (maxDisappeared : Nat := 10) (minOverlapRatio : ℚ := 3 / 10) :
    TrackerState :=
  { next_vehicle_id := 0
    vehicles := []
    max_disappeared := maxDisappeared
    min_overlap_ratio := minOverlapRatio
    crossed_vehicles := [] }

/-- Fallback box for out-of-range list indexing (never reached: every index
used comes from `List.range`). -/
def defaultBox : Box := ⟨0, 0, 0, 0⟩

/-- `VehicleTracker._check_line_crossing` (lines 157-172): if the box bottom
`y + h` has reached `detection_line_y` and the vehicle has not crossed yet,
set `crossed_line` and record the id in `crossed_vehicles`. -/
def checkLineCrossing (s : TrackerState) (vehicleId : Nat) (bbox : Box)
    (detectionLineY : ℤ) : TrackerState :=
  match lookupKey s.vehicles vehicleId with
  | none => s
  | some v =>
    if detectionLineY ≤ bbox.y + bbox.h ∧ v.crossed_line = false then
      { s with
        vehicles := setKey s.vehicles vehicleId { v with crossed_line := true }
        crossed_vehicles := setInsert s.crossed_vehicles vehicleId }
    else s

/-- The record dict `register` stores for a new vehicle (lines 145-150). -/
def freshRecord (bbox : Box) : Vehicle :=
  { bbox := bbox
    disappeared := 0
    crossed_line := false
    first_seen_bbox := bbox
    first_seen_crossed := false }

/-- `VehicleTracker.register` (lines 137-155): store a fresh record under
`next_vehicle_id`, run the line-crossing check on it, then increment the id
counter. -/
def registerVehicle (s : TrackerState) (bbox : Box) (detectionLineY : ℤ) :
    TrackerState :=
  let s1 := { s with
    vehicles := setKey s.vehicles s.next_vehicle_id (freshRecord bbox) }
  let s2 := checkLineCrossing s1 s.next_vehicle_id bbox detectionLineY
  { s2 with next_vehicle_id := s2.next_vehicle_id + 1 }

/-- The inner loop of `VehicleTracker.update` (lines 98-109): scan the
detections left-to-right, skipping claimed indices, keeping the running
maximum overlap together with its index; a candidate replaces the running
maximum only when its overlap strictly exceeds both the running maximum and
`min_overlap_ratio`. Returns the final `(max_overlap, max_overlap_idx)`,
with `none` standing for the sentinel index `-1`. -/
def bestMatchStep (vehicleBbox : Box) (boxes : List Box) (usedBboxes : List Nat)
    (minOverlapRatio : ℚ) (acc : ℚ × Option Nat) (j : Nat) : ℚ × Option Nat :=
  if j ∈ usedBboxes then acc
  else
    let overlap := calculateOverlap vehicleBbox (boxes.getD j defaultBox)
    if acc.1 < overlap ∧ minOverlapRatio < overlap then (overlap, some j)
    else acc

def bestMatch (vehicleBbox : Box) (boxes : List Box) (usedBboxes : List Nat)
    (minOverlapRatio : ℚ) : ℚ × Option Nat :=
  (List.range boxes.length).foldl
    (bestMatchStep vehicleBbox boxes usedBboxes minOverlapRatio) (0, none)

/-- Accumulator of the matching loop of `VehicleTracker.update`: the evolving
tracker state plus the `used_vehicles` and `used_bboxes` sets (modelled as
lists in insertion order). -/
structure MatchAcc where
  state : TrackerState
  used_vehicles : List Nat
  used_bboxes : List Nat
deriving DecidableEq, Repr

/-- The two record writes on a matched vehicle (lines 113-114):
`bbox` is set to the claimed detection, `disappeared` is reset to 0. -/
def matchedUpdate (matchedBox : Box) (v : Vehicle) : Vehicle :=
  { v with bbox := matchedBox, disappeared := 0 }

/-- One iteration of the matching loop of `VehicleTracker.update`
(lines 95-119) for the snapshot entry `(vehicle_id, vehicle)`: find the best
unclaimed detection for the vehicle's snapshot bbox; on a match update the
record's bbox, reset `disappeared`, mark vehicle and detection used and
re-run the line-crossing check. -/
def matchVehicleStep (boxes : List Box) (detectionLineY : ℤ) (acc : MatchAcc)
    (entry : Nat × Vehicle) : MatchAcc :=
  match (bestMatch entry.2.bbox boxes acc.used_bboxes
      acc.state.min_overlap_ratio).2 with
  | none => acc
  | some j =>
    let matchedBox := boxes.getD j defaultBox
    let s1 := { acc.state with
      vehicles := modifyKey acc.state.vehicles entry.1
        (matchedUpdate matchedBox) }
    let s2 := checkLineCrossing s1 entry.1 matchedBox detectionLineY
    { state := s2
      used_vehicles := acc.used_vehicles ++ [entry.1]
      used_bboxes := acc.used_bboxes ++ [j] }

/-- One iteration of the disappearance loop of `VehicleTracker.update`
(lines 122-128, and 72-78 for the empty-detections branch, where `matched`
is empty): an unmatched vehicle's `disappeared` count is incremented and the
record is deleted when the count strictly exceeds `max_disappeared`. -/
def disappearStep (maxDisappeared : Nat) (matched : List Nat)
    (d : List (Nat × Vehicle)) (vehicleId : Nat) : List (Nat × Vehicle) :=
  if vehicleId ∈ matched then d
  else
    match lookupKey d vehicleId with
    | none => d
    | some v =>
      let d1 := setKey d vehicleId { v with disappeared := v.disappeared + 1 }
      if maxDisappeared < v.disappeared + 1 then eraseKey d1 vehicleId else d1

/-- The registration loop of `VehicleTracker.update` (lines 131-133):
register every detection whose index was not claimed during matching. -/
def registerUnmatched (boxes : List Box) (detectionLineY : ℤ)
    (usedBboxes : List Nat) (s : TrackerState) : TrackerState :=
  (List.range boxes.length).foldl
    (fun st i =>
      if i ∈ usedBboxes then st
      else registerVehicle st (boxes.getD i defaultBox) detectionLineY)
    s

/-- Registering a whole list of boxes in order (the `len(self.vehicles) == 0`
branch of `update`, lines 82-84). -/
def registerAll (detectionLineY : ℤ) (bs : List Box) (s : TrackerState) :
    TrackerState :=
  bs.foldl (fun st b => registerVehicle st b detectionLineY) s

/-- `VehicleTracker.update` (lines 59-135). -/
def trackerUpdate (s : TrackerState) (boundingBoxes : List Box)
    (detectionLineY : ℤ) : TrackerState :=
  if boundingBoxes = [] then
    { s with
      vehicles := (dictKeys s.vehicles).foldl
        (disappearStep s.max_disappeared []) s.vehicles }
  else if s.vehicles = [] then
    registerAll detectionLineY boundingBoxes s
  else
    let m := s.vehicles.foldl (matchVehicleStep boundingBoxes detectionLineY)
      ⟨s, [], []⟩
    let d2 := (dictKeys s.vehicles).foldl
      (disappearStep s.max_disappeared m.used_vehicles) m.state.vehicles
    registerUnmatched boundingBoxes detectionLineY m.used_bboxes
      { m.state with vehicles := d2 }

/-- The dict `VehicleTracker.update` returns: the tracker's full internal
`self.vehicles` table. -/
def trackerUpdateReturn (s : TrackerState) (boundingBoxes : List Box)
    (detectionLineY : ℤ) : List (Nat × Vehicle) :=
  (trackerUpdate s boundingBoxes detectionLineY).vehicles

/-- `VehicleTracker.get_active_vehicles` (lines 183-191): the sub-dict of
vehicles with `disappeared == 0`. -/
def getActiveVehicles (s : TrackerState) : List (Nat × Vehicle) :=
  s.vehicles.filter (fun entry => entry.2.disappeared = 0)

/-- `VehicleTracker.get_crossed_count` (lines 174-181). -/
def getCrossedCount (s : TrackerState) : Nat :=
  s.crossed_vehicles.length

/-- Keys are strictly increasing in insertion order and below the id
counter: the reachable-state invariant of `VehicleTracker`. -/
def TrackerInv (s : TrackerState) : Prop :=
  (dictKeys s.vehicles).Sorted (· < ·) ∧
  ∀ k ∈ dictKeys s.vehicles, k < s.next_vehicle_id

instance (s : TrackerState) : Decidable (TrackerInv s) := by
  unfold TrackerInv
  infer_instance

/-! ### Further dict lemmas -/

lemma lookupKey_append_of_some {α : Type} {d1 : List (Nat × α)}
    (d2 : List (Nat × α)) {k : Nat} {v : α} (h : lookupKey d1 k = some v) :
    lookupKey (d1 ++ d2) k = some v := by
  induction d1 with
  | nil => simp [lookupKey] at h
  | cons e rest ih =>
    obtain ⟨k', v'⟩ := e
    by_cases hk : k' = k
    · simp only [lookupKey, if_pos hk] at h
      simp only [List.cons_append, lookupKey, if_pos hk, h]
    · simp only [lookupKey, if_neg hk] at h
      simp only [List.cons_append, lookupKey, if_neg hk]
      exact ih h

lemma lookupKey_append_of_none {α : Type} {d1 : List (Nat × α)}
    (d2 : List (Nat × α)) {k : Nat} (h : lookupKey d1 k = none) :
    lookupKey (d1 ++ d2) k = lookupKey d2 k := by
  induction d1 with
  | nil => simp
  | cons e rest ih =>
    obtain ⟨k', v'⟩ := e
    by_cases hk : k' = k
    · simp only [lookupKey, if_pos hk] at h
      cases h
    · simp only [lookupKey, if_neg hk] at h
      simp only [List.cons_append, lookupKey, if_neg hk]
      exact ih h

lemma setKey_of_not_mem {α : Type} {d : List (Nat × α)} {k : Nat}
    (v : α) (h : k ∉ dictKeys d) : setKey d k v = d ++ [(k, v)] := by
  induction d with
  | nil => simp [setKey]
  | cons e rest ih =>
    obtain ⟨k', v'⟩ := e
    rw [dictKeys_cons, List.mem_cons] at h
    push_neg at h
    have hk : k' ≠ k := fun hc => h.1 hc.symm
    simp only [setKey, if_neg hk, List.cons_append, List.cons_inj_right]
    exact ih h.2

lemma lookupKey_modifyKey {α : Type} (d : List (Nat × α)) (k : Nat)
    (f : α → α) (k' : Nat) :
    lookupKey (modifyKey d k f) k' =
      if k' = k then (lookupKey d k).map f else lookupKey d k' := by
  unfold modifyKey
  cases h : lookupKey d k with
  | none =>
    by_cases hk : k' = k
    · subst hk
      simp [h]
    · simp [hk]
  | some v =>
    by_cases hk : k' = k
    · subst hk
      simp [h, lookupKey_setKey_self]
    · simp [hk, lookupKey_setKey_other d k k' (f v) hk]

lemma dictKeys_modifyKey {α : Type} (d : List (Nat × α)) (k : Nat)
    (f : α → α) : dictKeys (modifyKey d k f) = dictKeys d := by
  unfold modifyKey
  cases h : lookupKey d k with
  | none => rfl
  | some v =>
    apply dictKeys_setKey_mem
    rw [← lookupKey_isSome, h]
    rfl

/-! ### Lemmas about the tracker's primitive operations -/

lemma checkLineCrossing_next (s : TrackerState) (vid : Nat) (bbox : Box)
    (lineY : ℤ) :
    (checkLineCrossing s vid bbox lineY).next_vehicle_id = s.next_vehicle_id := by
  unfold checkLineCrossing
  cases lookupKey s.vehicles vid with
  | none => rfl
  | some v =>
    by_cases hc : lineY ≤ bbox.y + bbox.h ∧ v.crossed_line = false
    · simp [hc]
    · simp [hc]

lemma checkLineCrossing_max (s : TrackerState) (vid : Nat) (bbox : Box)
    (lineY : ℤ) :
    (checkLineCrossing s vid bbox lineY).max_disappeared = s.max_disappeared := by
  unfold checkLineCrossing
  cases lookupKey s.vehicles vid with
  | none => rfl
  | some v =>
    by_cases hc : lineY ≤ bbox.y + bbox.h ∧ v.crossed_line = false
    · simp [hc]
    · simp [hc]

lemma checkLineCrossing_ratio (s : TrackerState) (vid : Nat) (bbox : Box)
    (lineY : ℤ) :
    (checkLineCrossing s vid bbox lineY).min_overlap_ratio =
      s.min_overlap_ratio := by
  unfold checkLineCrossing
  cases lookupKey s.vehicles vid with
  | none => rfl
  | some v =>
    by_cases hc : lineY ≤ bbox.y + bbox.h ∧ v.crossed_line = false
    · simp [hc]
    · simp [hc]

lemma checkLineCrossing_keys (s : TrackerState) (vid : Nat) (bbox : Box)
    (lineY : ℤ) :
    dictKeys (checkLineCrossing s vid bbox lineY).vehicles =
      dictKeys s.vehicles := by
  unfold checkLineCrossing
  cases h : lookupKey s.vehicles vid with
  | none => rfl
  | some v =>
    by_cases hc : lineY ≤ bbox.y + bbox.h ∧ v.crossed_line = false
    · simp only [hc, if_true]
      apply dictKeys_setKey_mem
      rw [← lookupKey_isSome, h]
      rfl
    · simp [hc]

lemma checkLineCrossing_lookup (s : TrackerState) (vid : Nat) (bbox : Box)
    (lineY : ℤ) (k : Nat) :
    lookupKey (checkLineCrossing s vid bbox lineY).vehicles k =
      if k = vid then
        (lookupKey s.vehicles vid).map (fun v =>
          if lineY ≤ bbox.y + bbox.h ∧ v.crossed_line = false then
            { v with crossed_line := true }
          else v)
      else lookupKey s.vehicles k := by
  unfold checkLineCrossing
  cases h : lookupKey s.vehicles vid with
  | none =>
    by_cases hk : k = vid
    · subst hk
      simp [h]
    · simp [hk]
  | some v =>
    by_cases hc : lineY ≤ bbox.y + bbox.h ∧ v.crossed_line = false
    · simp only [hc, if_true]
      by_cases hk : k = vid
      · subst hk
        simp [h, lookupKey_setKey_self, hc]
      · simp [hk, lookupKey_setKey_other s.vehicles vid k _ hk]
    · simp only [hc, if_false]
      by_cases hk : k = vid
      · subst hk
        simp [h, hc]
      · simp [hk]

lemma setKey_append_single {α : Type} (d : List (Nat × α)) (k : Nat)
    (v v' : α) (h : k ∉ dictKeys d) :
    setKey (d ++ [(k, v)]) k v' = d ++ [(k, v')] := by
  induction d with
  | nil => simp [setKey]
  | cons e rest ih =>
    obtain ⟨k'', v''⟩ := e
    rw [dictKeys_cons, List.mem_cons] at h
    push_neg at h
    have hk : k'' ≠ k := fun hc => h.1 hc.symm
    simp only [List.cons_append, setKey, if_neg hk, List.cons_inj_right]
    exact ih h.2

/-- The record a vehicle holds right after `register` ran on box `b`: the
fresh fields, with `crossed_line` already true when the bottom of the box
has reached the detection line. -/
def registeredRecord (b : Box) (lineY : ℤ) : Vehicle :=
  if lineY ≤ b.y + b.h then { freshRecord b with crossed_line := true }
  else freshRecord b

lemma registerVehicle_spec (s : TrackerState) (b : Box) (lineY : ℤ)
    (h : s.next_vehicle_id ∉ dictKeys s.vehicles) :
    (registerVehicle s b lineY).vehicles
        = s.vehicles ++ [(s.next_vehicle_id, registeredRecord b lineY)] ∧
    (registerVehicle s b lineY).next_vehicle_id = s.next_vehicle_id + 1 ∧
    (registerVehicle s b lineY).max_disappeared = s.max_disappeared ∧
    (registerVehicle s b lineY).min_overlap_ratio = s.min_overlap_ratio := by
  have hset : setKey s.vehicles s.next_vehicle_id (freshRecord b)
      = s.vehicles ++ [(s.next_vehicle_id, freshRecord b)] :=
    setKey_of_not_mem _ h
  have hnone : lookupKey s.vehicles s.next_vehicle_id = none :=
    (lookupKey_eq_none _ _).2 h
  have hlook : lookupKey (s.vehicles ++ [(s.next_vehicle_id, freshRecord b)])
      s.next_vehicle_id = some (freshRecord b) := by
    rw [lookupKey_append_of_none _ hnone]
    simp [lookupKey]
  have hset2 : setKey (s.vehicles ++ [(s.next_vehicle_id, freshRecord b)])
      s.next_vehicle_id { freshRecord b with crossed_line := true }
      = s.vehicles ++ [(s.next_vehicle_id,
          { freshRecord b with crossed_line := true })] :=
    setKey_append_single _ _ _ _ h
  by_cases hline : lineY ≤ b.y + b.h
  · have hcond : lineY ≤ b.y + b.h ∧ (freshRecord b).crossed_line = false :=
      ⟨hline, rfl⟩
    simp only [registerVehicle, checkLineCrossing, hset, hlook, if_pos hcond,
      hset2, registeredRecord, if_pos hline]
    simp
  · have hcond : ¬(lineY ≤ b.y + b.h ∧ (freshRecord b).crossed_line = false) :=
      fun hc => hline hc.1
    simp only [registerVehicle, checkLineCrossing, hset, hlook, if_neg hcond,
      registeredRecord, if_neg hline]
    simp

/-! ### Correctness of the greedy best-match scan -/

lemma bestMatchStep_eq (vb : Box) (boxes : List Box) (used : List Nat)
    (thr : ℚ) (acc : ℚ × Option Nat) (j : Nat) :
    bestMatchStep vb boxes used thr acc j =
      if j ∈ used then acc
      else if acc.1 < calculateOverlap vb (boxes.getD j defaultBox) ∧
          thr < calculateOverlap vb (boxes.getD j defaultBox) then
        (calculateOverlap vb (boxes.getD j defaultBox), some j)
      else acc := rfl

lemma bestMatchFold_spec (vb : Box) (boxes : List Box) (used : List Nat)
    (thr : ℚ) (l : List Nat) (acc : ℚ × Option Nat) :
    acc.1 ≤ (l.foldl (bestMatchStep vb boxes used thr) acc).1 ∧
    (∀ k ∈ l, k ∉ used →
      calculateOverlap vb (boxes.getD k defaultBox) ≤
        (l.foldl (bestMatchStep vb boxes used thr) acc).1 ∨
      calculateOverlap vb (boxes.getD k defaultBox) ≤ thr) ∧
    (l.foldl (bestMatchStep vb boxes used thr) acc = acc ∨
      ∃ j, j ∈ l ∧ j ∉ used ∧
        (l.foldl (bestMatchStep vb boxes used thr) acc).2 = some j ∧
        (l.foldl (bestMatchStep vb boxes used thr) acc).1 =
          calculateOverlap vb (boxes.getD j defaultBox) ∧
        thr < (l.foldl (bestMatchStep vb boxes used thr) acc).1) := by
  induction l generalizing acc with
  | nil => exact ⟨le_refl _, by simp, Or.inl rfl⟩
  | cons j l ih =>
    rw [List.foldl_cons]
    obtain ⟨ih1, ih2, ih3⟩ := ih (bestMatchStep vb boxes used thr acc j)
    have hstep : acc.1 ≤ (bestMatchStep vb boxes used thr acc j).1 := by
      rw [bestMatchStep_eq]
      by_cases hu : j ∈ used
      · rw [if_pos hu]
      · rw [if_neg hu]
        by_cases hq : acc.1 < calculateOverlap vb (boxes.getD j defaultBox) ∧
            thr < calculateOverlap vb (boxes.getD j defaultBox)
        · rw [if_pos hq]
          exact hq.1.le
        · rw [if_neg hq]
    refine ⟨hstep.trans ih1, ?_, ?_⟩
    · intro k hk hku
      rcases List.mem_cons.1 hk with rfl | hk
      · by_cases hq : acc.1 < calculateOverlap vb (boxes.getD k defaultBox) ∧
            thr < calculateOverlap vb (boxes.getD k defaultBox)
        · have hsel : bestMatchStep vb boxes used thr acc k =
              (calculateOverlap vb (boxes.getD k defaultBox), some k) := by
            rw [bestMatchStep_eq, if_neg hku, if_pos hq]
          rw [hsel] at ih1 ⊢
          exact Or.inl ih1
        · rw [not_and_or, not_lt, not_lt] at hq
          rcases hq with hq | hq
          · exact Or.inl (hq.trans (hstep.trans ih1))
          · exact Or.inr hq
      · exact ih2 k hk hku
    · rcases ih3 with ih3 | ih3
      · by_cases hu : j ∈ used
        · have hskip : bestMatchStep vb boxes used thr acc j = acc := by
            rw [bestMatchStep_eq, if_pos hu]
          rw [hskip] at ih3 ⊢
          exact Or.inl ih3
        · by_cases hq : acc.1 < calculateOverlap vb (boxes.getD j defaultBox) ∧
              thr < calculateOverlap vb (boxes.getD j defaultBox)
          · have hsel : bestMatchStep vb boxes used thr acc j =
                (calculateOverlap vb (boxes.getD j defaultBox), some j) := by
              rw [bestMatchStep_eq, if_neg hu, if_pos hq]
            rw [hsel] at ih3 ⊢
            rw [ih3]
            exact Or.inr ⟨j, List.mem_cons_self _ _, hu, rfl, rfl, hq.2⟩
          · have hskip : bestMatchStep vb boxes used thr acc j = acc := by
              rw [bestMatchStep_eq, if_neg hu, if_neg hq]
            rw [hskip] at ih3 ⊢
            exact Or.inl ih3
      · obtain ⟨j', hj'l, hj'u, hres⟩ := ih3
        exact Or.inr ⟨j', List.mem_cons_of_mem _ hj'l, hj'u, hres⟩

lemma bestMatch_some (vb : Box) (boxes : List Box) (used : List Nat) (thr : ℚ)
    (j : Nat) (hj : (bestMatch vb boxes used thr).2 = some j) :
    j < boxes.length ∧ j ∉ used ∧
    (bestMatch vb boxes used thr).1 =
      calculateOverlap vb (boxes.getD j defaultBox) ∧
    thr < (bestMatch vb boxes used thr).1 ∧
    ∀ k < boxes.length, k ∉ used →
      calculateOverlap vb (boxes.getD k defaultBox) ≤
        (bestMatch vb boxes used thr).1 := by
  obtain ⟨h1, h2, h3⟩ := bestMatchFold_spec vb boxes used thr
    (List.range boxes.length) (0, none)
  rw [show (List.range boxes.length).foldl
      (bestMatchStep vb boxes used thr) (0, none) = bestMatch vb boxes used thr
    from rfl] at h1 h2 h3
  rcases h3 with h3 | h3
  · rw [h3] at hj
    cases hj
  · obtain ⟨j', hj'l, hj'u, hsome, hval, hthr⟩ := h3
    rw [hsome] at hj
    injection hj with hj
    subst hj
    refine ⟨List.mem_range.1 hj'l, hj'u, hval, hthr, ?_⟩
    intro k hk hku
    rcases h2 k (List.mem_range.2 hk) hku with h | h
    · exact h
    · exact h.trans hthr.le

lemma bestMatch_none (vb : Box) (boxes : List Box) (used : List Nat) (thr : ℚ)
    (hthr : 0 ≤ thr) (hn : (bestMatch vb boxes used thr).2 = none) :
    ∀ k < boxes.length, k ∉ used →
      calculateOverlap vb (boxes.getD k defaultBox) ≤ thr := by
  obtain ⟨h1, h2, h3⟩ := bestMatchFold_spec vb boxes used thr
    (List.range boxes.length) (0, none)
  rw [show (List.range boxes.length).foldl
      (bestMatchStep vb boxes used thr) (0, none) = bestMatch vb boxes used thr
    from rfl] at h1 h2 h3
  rcases h3 with h3 | h3
  · intro k hk hku
    rcases h2 k (List.mem_range.2 hk) hku with h | h
    · rw [h3] at h
      exact h.trans hthr
    · exact h
  · obtain ⟨j', hj'l, hj'u, hsome, hval, hthr'⟩ := h3
    rw [hsome] at hn
    cases hn

/-! ### The matching loop of `update` -/

/-- The tracker state midway through a successful match of entry `e` to
detection index `j`: record updated, crossing check not yet re-run. -/
def matchedMid (boxes : List Box) (acc : MatchAcc) (e : Nat × Vehicle)
    (j : Nat) : TrackerState :=
  { acc.state with vehicles := modifyKey acc.state.vehicles e.1 (matchedUpdate (boxes.getD j defaultBox)) }

/-- The accumulator after a successful match of entry `e` to detection
index `j`. -/
def matchedAcc (boxes : List Box) (lineY : ℤ) (acc : MatchAcc)
    (e : Nat × Vehicle) (j : Nat) : MatchAcc :=
  { state := checkLineCrossing (matchedMid boxes acc e j) e.1 (boxes.getD j defaultBox) lineY
    used_vehicles := acc.used_vehicles ++ [e.1]
    used_bboxes := acc.used_bboxes ++ [j] }

lemma matchVehicleStep_cases (boxes : List Box) (lineY : ℤ) (acc : MatchAcc)
    (e : Nat × Vehicle) :
    (matchVehicleStep boxes lineY acc e = acc ∧
      (bestMatch e.2.bbox boxes acc.used_bboxes
        acc.state.min_overlap_ratio).2 = none) ∨
    ∃ j, (bestMatch e.2.bbox boxes acc.used_bboxes
        acc.state.min_overlap_ratio).2 = some j ∧
      matchVehicleStep boxes lineY acc e = matchedAcc boxes lineY acc e j := by
  unfold matchVehicleStep
  cases hbm : (bestMatch e.2.bbox boxes acc.used_bboxes
      acc.state.min_overlap_ratio).2 with
  | none => exact Or.inl ⟨rfl, rfl⟩
  | some j => exact Or.inr ⟨j, rfl, rfl⟩

lemma matchedMid_vehicles (boxes : List Box) (acc : MatchAcc)
    (e : Nat × Vehicle) (j : Nat) :
    (matchedMid boxes acc e j).vehicles
      = modifyKey acc.state.vehicles e.1 (matchedUpdate (boxes.getD j defaultBox)) := rfl

lemma matchedAcc_state (boxes : List Box) (lineY : ℤ) (acc : MatchAcc)
    (e : Nat × Vehicle) (j : Nat) :
    (matchedAcc boxes lineY acc e j).state =
      checkLineCrossing (matchedMid boxes acc e j) e.1 (boxes.getD j defaultBox) lineY := rfl

lemma matchVehicleStep_state (boxes : List Box) (lineY : ℤ) (acc : MatchAcc)
    (e : Nat × Vehicle) :
    (matchVehicleStep boxes lineY acc e).state.next_vehicle_id
        = acc.state.next_vehicle_id ∧
    (matchVehicleStep boxes lineY acc e).state.max_disappeared
        = acc.state.max_disappeared ∧
    (matchVehicleStep boxes lineY acc e).state.min_overlap_ratio
        = acc.state.min_overlap_ratio ∧
    dictKeys (matchVehicleStep boxes lineY acc e).state.vehicles
        = dictKeys acc.state.vehicles := by
  rcases matchVehicleStep_cases boxes lineY acc e with ⟨h, _⟩ | ⟨j, hbm, h⟩
  · rw [h]
    exact ⟨rfl, rfl, rfl, rfl⟩
  · rw [h, matchedAcc_state]
    rw [checkLineCrossing_next, checkLineCrossing_max, checkLineCrossing_ratio,
      checkLineCrossing_keys, matchedMid_vehicles, dictKeys_modifyKey]
    exact ⟨rfl, rfl, rfl, rfl⟩

lemma matchVehicleStep_used (boxes : List Box) (lineY : ℤ) (acc : MatchAcc)
    (e : Nat × Vehicle) :
    (matchVehicleStep boxes lineY acc e).used_vehicles = acc.used_vehicles ∧
      (matchVehicleStep boxes lineY acc e).used_bboxes = acc.used_bboxes ∨
    ∃ j, (matchVehicleStep boxes lineY acc e).used_vehicles
          = acc.used_vehicles ++ [e.1] ∧
      (matchVehicleStep boxes lineY acc e).used_bboxes
          = acc.used_bboxes ++ [j] := by
  rcases matchVehicleStep_cases boxes lineY acc e with ⟨h, _⟩ | ⟨j, hbm, h⟩
  · rw [h]
    exact Or.inl ⟨rfl, rfl⟩
  · rw [h]
    exact Or.inr ⟨j, rfl, rfl⟩

lemma matchVehicleStep_lookup_other (boxes : List Box) (lineY : ℤ)
    (acc : MatchAcc) (e : Nat × Vehicle) (k : Nat) (hk : k ≠ e.1) :
    lookupKey (matchVehicleStep boxes lineY acc e).state.vehicles k =
      lookupKey acc.state.vehicles k := by
  rcases matchVehicleStep_cases boxes lineY acc e with ⟨h, _⟩ | ⟨j, hbm, h⟩
  · rw [h]
  · rw [h, matchedAcc_state]
    rw [checkLineCrossing_lookup, if_neg hk, matchedMid_vehicles,
      lookupKey_modifyKey, if_neg hk]

lemma matchVehicleStep_lookup_self (boxes : List Box) (lineY : ℤ)
    (acc : MatchAcc) (e : Nat × Vehicle) (j : Nat)
    (hbm : (bestMatch e.2.bbox boxes acc.used_bboxes
      acc.state.min_overlap_ratio).2 = some j) :
    lookupKey (matchVehicleStep boxes lineY acc e).state.vehicles e.1 =
      (lookupKey acc.state.vehicles e.1).map (fun v =>
        let v1 := matchedUpdate (boxes.getD j defaultBox) v
        if lineY ≤ (boxes.getD j defaultBox).y + (boxes.getD j defaultBox).h ∧
            v1.crossed_line = false then
          { v1 with crossed_line := true }
        else v1) := by
  rcases matchVehicleStep_cases boxes lineY acc e with ⟨h, hnone⟩ | ⟨j', hbm', h⟩
  · rw [hnone] at hbm
    cases hbm
  · rw [hbm'] at hbm
    injection hbm with hj
    subst hj
    rw [h, matchedAcc_state]
    rw [checkLineCrossing_lookup, if_pos rfl, matchedMid_vehicles,
      lookupKey_modifyKey, if_pos rfl]
    cases lookupKey acc.state.vehicles e.1 with
    | none => rfl
    | some v => rfl

lemma matchVehicleStep_mono (boxes : List Box) (lineY : ℤ) (acc : MatchAcc)
    (e : Nat × Vehicle) (k : Nat) (v : Vehicle)
    (h : lookupKey acc.state.vehicles k = some v) :
    ∃ v', lookupKey (matchVehicleStep boxes lineY acc e).state.vehicles k
        = some v' ∧ (v.crossed_line = true → v'.crossed_line = true) := by
  by_cases hk : k = e.1
  · subst hk
    rcases matchVehicleStep_cases boxes lineY acc e with ⟨hc, _⟩ | ⟨j, hbm, hc⟩
    · rw [hc]
      exact ⟨v, h, fun hv => hv⟩
    · rw [matchVehicleStep_lookup_self boxes lineY acc e j hbm, h]
      rw [Option.map_some']
      by_cases hcond : lineY ≤ (boxes.getD j defaultBox).y
            + (boxes.getD j defaultBox).h ∧
          (matchedUpdate (boxes.getD j defaultBox) v).crossed_line = false
      · rw [if_pos hcond]
        exact ⟨_, rfl, fun _ => rfl⟩
      · rw [if_neg hcond]
        exact ⟨_, rfl, fun hv => hv⟩
  · rw [matchVehicleStep_lookup_other boxes lineY acc e k hk]
    exact ⟨v, h, fun hv => hv⟩

/-- Every vehicle marked used during matching carries `disappeared = 0`. -/
def UsedZero (m : MatchAcc) : Prop :=
  ∀ k ∈ m.used_vehicles, ∀ v,
    lookupKey m.state.vehicles k = some v → v.disappeared = 0

lemma matchVehicleStep_usedZero (boxes : List Box) (lineY : ℤ) (acc : MatchAcc)
    (e : Nat × Vehicle) (hz : UsedZero acc) :
    UsedZero (matchVehicleStep boxes lineY acc e) := by
  rcases matchVehicleStep_cases boxes lineY acc e with ⟨hc, _⟩ | ⟨j, hbm, hc⟩
  · rw [hc]
    exact hz
  · intro k hk v hv
    by_cases hke : k = e.1
    · subst hke
      rw [matchVehicleStep_lookup_self boxes lineY acc e j hbm] at hv
      cases hold : lookupKey acc.state.vehicles e.1 with
      | none =>
        rw [hold] at hv
        cases hv
      | some v0 =>
        rw [hold] at hv
        rw [Option.map_some'] at hv
        by_cases hcond : lineY ≤ (boxes.getD j defaultBox).y
              + (boxes.getD j defaultBox).h ∧
            (matchedUpdate (boxes.getD j defaultBox) v0).crossed_line = false
        · rw [if_pos hcond] at hv
          cases hv
          rfl
        · rw [if_neg hcond] at hv
          cases hv
          rfl
    · rw [matchVehicleStep_lookup_other boxes lineY acc e k hke] at hv
      rw [hc] at hk
      rw [show (matchedAcc boxes lineY acc e j).used_vehicles
          = acc.used_vehicles ++ [e.1] from rfl] at hk
      rcases List.mem_append.1 hk with hk | hk
      · exact hz k hk v hv
      · exact absurd (List.mem_singleton.1 hk) hke

lemma matchFold_state (boxes : List Box) (lineY : ℤ)
    (es : List (Nat × Vehicle)) (acc : MatchAcc) :
    (es.foldl (matchVehicleStep boxes lineY) acc).state.next_vehicle_id
        = acc.state.next_vehicle_id ∧
    (es.foldl (matchVehicleStep boxes lineY) acc).state.max_disappeared
        = acc.state.max_disappeared ∧
    (es.foldl (matchVehicleStep boxes lineY) acc).state.min_overlap_ratio
        = acc.state.min_overlap_ratio ∧
    dictKeys (es.foldl (matchVehicleStep boxes lineY) acc).state.vehicles
        = dictKeys acc.state.vehicles := by
  induction es generalizing acc with
  | nil => exact ⟨rfl, rfl, rfl, rfl⟩
  | cons e es ih =>
    rw [List.foldl_cons]
    obtain ⟨i1, i2, i3, i4⟩ := ih (matchVehicleStep boxes lineY acc e)
    obtain ⟨s1, s2, s3, s4⟩ := matchVehicleStep_state boxes lineY acc e
    exact ⟨i1.trans s1, i2.trans s2, i3.trans s3, i4.trans s4⟩

lemma matchFold_used_append (boxes : List Box) (lineY : ℤ)
    (es : List (Nat × Vehicle)) (acc : MatchAcc) :
    ∃ u, (es.foldl (matchVehicleStep boxes lineY) acc).used_vehicles
        = acc.used_vehicles ++ u := by
  induction es generalizing acc with
  | nil => exact ⟨[], by simp⟩
  | cons e es ih =>
    rw [List.foldl_cons]
    obtain ⟨u, hu⟩ := ih (matchVehicleStep boxes lineY acc e)
    rcases matchVehicleStep_used boxes lineY acc e with ⟨h1, _⟩ | ⟨j, h1, _⟩
    · exact ⟨u, by rw [hu, h1]⟩
    · exact ⟨[e.1] ++ u, by rw [hu, h1, List.append_assoc]⟩

lemma matchFold_lookup_unused (boxes : List Box) (lineY : ℤ)
    (es : List (Nat × Vehicle)) (acc : MatchAcc) (k : Nat)
    (hk : k ∉ (es.foldl (matchVehicleStep boxes lineY) acc).used_vehicles) :
    lookupKey (es.foldl (matchVehicleStep boxes lineY) acc).state.vehicles k
      = lookupKey acc.state.vehicles k := by
  induction es generalizing acc with
  | nil => rfl
  | cons e es ih =>
    rw [List.foldl_cons] at hk ⊢
    rw [ih (matchVehicleStep boxes lineY acc e) hk]
    rcases matchVehicleStep_cases boxes lineY acc e with ⟨hc, _⟩ | ⟨j, hbm, hc⟩
    · rw [hc]
    · have he1 : e.1 ∈ (matchVehicleStep boxes lineY acc e).used_vehicles := by
        rw [hc]
        rw [show (matchedAcc boxes lineY acc e j).used_vehicles
            = acc.used_vehicles ++ [e.1] from rfl]
        simp
      obtain ⟨u, hu⟩ := matchFold_used_append boxes lineY es
        (matchVehicleStep boxes lineY acc e)
      have he1M : e.1 ∈ (es.foldl (matchVehicleStep boxes lineY)
          (matchVehicleStep boxes lineY acc e)).used_vehicles := by
        rw [hu]
        exact List.mem_append_left _ he1
      have hke : k ≠ e.1 := fun hkeq => hk (hkeq ▸ he1M)
      exact matchVehicleStep_lookup_other boxes lineY acc e k hke

lemma matchFold_mono (boxes : List Box) (lineY : ℤ)
    (es : List (Nat × Vehicle)) (acc : MatchAcc) (k : Nat) (v : Vehicle)
    (h : lookupKey acc.state.vehicles k = some v) :
    ∃ v', lookupKey
        (es.foldl (matchVehicleStep boxes lineY) acc).state.vehicles k
        = some v' ∧ (v.crossed_line = true → v'.crossed_line = true) := by
  induction es generalizing acc v with
  | nil => exact ⟨v, h, fun hv => hv⟩
  | cons e es ih =>
    rw [List.foldl_cons]
    obtain ⟨v1, hv1, hm1⟩ := matchVehicleStep_mono boxes lineY acc e k v h
    obtain ⟨v2, hv2, hm2⟩ := ih (matchVehicleStep boxes lineY acc e) v1 hv1
    exact ⟨v2, hv2, fun hv => hm2 (hm1 hv)⟩

lemma matchFold_usedZero (boxes : List Box) (lineY : ℤ)
    (es : List (Nat × Vehicle)) (acc : MatchAcc) (hz : UsedZero acc) :
    UsedZero (es.foldl (matchVehicleStep boxes lineY) acc) := by
  induction es generalizing acc with
  | nil => exact hz
  | cons e es ih =>
    rw [List.foldl_cons]
    exact ih _ (matchVehicleStep_usedZero boxes lineY acc e hz)

/-! ### The disappearance loop of `update` -/

lemma disappearStep_of_mem (maxD : Nat) (m : List Nat)
    (d : List (Nat × Vehicle)) (vid : Nat) (h : vid ∈ m) :
    disappearStep maxD m d vid = d := by
  unfold disappearStep
  rw [if_pos h]

lemma disappearStep_of_none (maxD : Nat) (m : List Nat)
    (d : List (Nat × Vehicle)) (vid : Nat) (hm : vid ∉ m)
    (h : lookupKey d vid = none) :
    disappearStep maxD m d vid = d := by
  unfold disappearStep
  rw [if_neg hm, h]

lemma disappearStep_of_some (maxD : Nat) (m : List Nat)
    (d : List (Nat × Vehicle)) (vid : Nat) (v : Vehicle) (hm : vid ∉ m)
    (h : lookupKey d vid = some v) :
    disappearStep maxD m d vid =
      if maxD < v.disappeared + 1 then
        eraseKey (setKey d vid { v with disappeared := v.disappeared + 1 }) vid
      else setKey d vid { v with disappeared := v.disappeared + 1 } := by
  unfold disappearStep
  rw [if_neg hm, h]

lemma disappearStep_lookup (maxD : Nat) (m : List Nat)
    (d : List (Nat × Vehicle)) (vid : Nat) (hnd : (dictKeys d).Nodup)
    (k : Nat) :
    lookupKey (disappearStep maxD m d vid) k =
      if k = vid ∧ k ∉ m then
        (lookupKey d k).bind (fun v =>
          if maxD < v.disappeared + 1 then none
          else some { v with disappeared := v.disappeared + 1 })
      else lookupKey d k := by
  by_cases hm : vid ∈ m
  · rw [disappearStep_of_mem maxD m d vid hm]
    by_cases hkv : k = vid ∧ k ∉ m
    · obtain ⟨hkv, hkm⟩ := hkv
      subst hkv
      exact absurd hm hkm
    · rw [if_neg hkv]
  · cases hvd : lookupKey d vid with
    | none =>
      rw [disappearStep_of_none maxD m d vid hm hvd]
      by_cases hkv : k = vid ∧ k ∉ m
      · rw [if_pos hkv, hkv.1, hvd]
        rfl
      · rw [if_neg hkv]
    | some v =>
      rw [disappearStep_of_some maxD m d vid v hm hvd]
      have hmem : vid ∈ dictKeys d := by
        rw [← lookupKey_isSome, hvd]
        rfl
      have hkeys : dictKeys (setKey d vid
          { v with disappeared := v.disappeared + 1 }) = dictKeys d :=
        dictKeys_setKey_mem d vid _ hmem
      by_cases hover : maxD < v.disappeared + 1
      · rw [if_pos hover]
        by_cases hkv : k = vid
        · subst hkv
          rw [if_pos ⟨rfl, hm⟩, hvd]
          rw [lookupKey_eraseKey_self _ _ (by rw [hkeys]; exact hnd)]
          rw [Option.some_bind, if_pos hover]
        · rw [if_neg (fun hc => hkv hc.1)]
          rw [lookupKey_eraseKey_other _ _ _ hkv,
            lookupKey_setKey_other _ _ _ _ hkv]
      · rw [if_neg hover]
        by_cases hkv : k = vid
        · subst hkv
          rw [if_pos ⟨rfl, hm⟩, hvd]
          rw [lookupKey_setKey_self]
          rw [Option.some_bind, if_neg hover]
        · rw [if_neg (fun hc => hkv hc.1)]
          rw [lookupKey_setKey_other _ _ _ _ hkv]

lemma disappearStep_keys (maxD : Nat) (m : List Nat)
    (d : List (Nat × Vehicle)) (vid : Nat) :
    (dictKeys (disappearStep maxD m d vid)).Sublist (dictKeys d) := by
  by_cases hm : vid ∈ m
  · rw [disappearStep_of_mem maxD m d vid hm]
  · cases hvd : lookupKey d vid with
    | none =>
      rw [disappearStep_of_none maxD m d vid hm hvd]
    | some v =>
      rw [disappearStep_of_some maxD m d vid v hm hvd]
      have hmem : vid ∈ dictKeys d := by
        rw [← lookupKey_isSome, hvd]
        rfl
      have hkeys : dictKeys (setKey d vid
          { v with disappeared := v.disappeared + 1 }) = dictKeys d :=
        dictKeys_setKey_mem d vid _ hmem
      by_cases hover : maxD < v.disappeared + 1
      · rw [if_pos hover]
        exact (dictKeys_eraseKey_sublist _ _).trans
          (hkeys ▸ List.Sublist.refl _)
      · rw [if_neg hover]
        exact hkeys ▸ List.Sublist.refl _

lemma disappearFold_keys (maxD : Nat) (m : List Nat) (l : List Nat)
    (d : List (Nat × Vehicle)) :
    (dictKeys (l.foldl (disappearStep maxD m) d)).Sublist (dictKeys d) := by
  induction l generalizing d with
  | nil => exact List.Sublist.refl _
  | cons vid l ih =>
    rw [List.foldl_cons]
    exact (ih (disappearStep maxD m d vid)).trans
      (disappearStep_keys maxD m d vid)

lemma disappearFold_lookup (maxD : Nat) (m : List Nat) (l : List Nat)
    (d : List (Nat × Vehicle)) (hnd : (dictKeys d).Nodup) (hl : l.Nodup)
    (k : Nat) :
    lookupKey (l.foldl (disappearStep maxD m) d) k =
      if k ∈ l ∧ k ∉ m then
        (lookupKey d k).bind (fun v =>
          if maxD < v.disappeared + 1 then none
          else some { v with disappeared := v.disappeared + 1 })
      else lookupKey d k := by
  induction l generalizing d with
  | nil => simp
  | cons vid l ih =>
    rw [List.foldl_cons]
    rw [List.nodup_cons] at hl
    have hnd' : (dictKeys (disappearStep maxD m d vid)).Nodup :=
      (disappearStep_keys maxD m d vid).nodup hnd
    rw [ih (disappearStep maxD m d vid) hnd' hl.2]
    by_cases hkv : k = vid
    · subst hkv
      have hknl : k ∉ l := hl.1
      rw [if_neg (fun hc => hknl hc.1)]
      rw [disappearStep_lookup maxD m d k hnd k]
      by_cases hkm : k ∉ m
      · rw [if_pos ⟨rfl, hkm⟩, if_pos ⟨List.mem_cons_self _ _, hkm⟩]
      · rw [if_neg (fun hc => hkm hc.2), if_neg (fun hc => hkm hc.2)]
    · have hstep : lookupKey (disappearStep maxD m d vid) k = lookupKey d k := by
        rw [disappearStep_lookup maxD m d vid hnd k,
          if_neg (fun hc => hkv hc.1)]
      rw [hstep]
      by_cases hkl : k ∈ l ∧ k ∉ m
      · rw [if_pos hkl, if_pos ⟨List.mem_cons_of_mem _ hkl.1, hkl.2⟩]
      · rw [if_neg hkl]
        have : ¬(k ∈ vid :: l ∧ k ∉ m) := by
          intro hc
          rcases List.mem_cons.1 hc.1 with h1 | h1
          · exact hkv h1
          · exact hkl ⟨h1, hc.2⟩
        rw [if_neg this]

/-! ### The registration loop of `update` -/

lemma dictKeys_append {α : Type} (d1 d2 : List (Nat × α)) :
    dictKeys (d1 ++ d2) = dictKeys d1 ++ dictKeys d2 := by
  simp [dictKeys]

/-- The records appended by a run of registrations starting at id `n`. -/
def buildRegs (lineY : ℤ) : Nat → List Box → List (Nat × Vehicle)
  | _, [] => []
  | n, b :: rest => (n, registeredRecord b lineY) :: buildRegs lineY (n + 1) rest

lemma buildRegs_keys_bounds (lineY : ℤ) (bs : List Box) : ∀ n : Nat,
    (dictKeys (buildRegs lineY n bs)).Sorted (· < ·) ∧
    ∀ k ∈ dictKeys (buildRegs lineY n bs), n ≤ k ∧ k < n + bs.length := by
  induction bs with
  | nil =>
    intro n
    exact ⟨List.sorted_nil, by simp [buildRegs, dictKeys_nil]⟩
  | cons b bs ih =>
    intro n
    obtain ⟨ihs, ihb⟩ := ih (n + 1)
    rw [show buildRegs lineY n (b :: bs)
        = (n, registeredRecord b lineY) :: buildRegs lineY (n + 1) bs from rfl,
      dictKeys_cons]
    constructor
    · rw [List.sorted_cons]
      exact ⟨fun k hk => lt_of_lt_of_le (Nat.lt_succ_self n) (ihb k hk).1, ihs⟩
    · intro k hk
      rcases List.mem_cons.1 hk with rfl | hk
      · exact ⟨le_refl _, by rw [List.length_cons]; omega⟩
      · obtain ⟨h1, h2⟩ := ihb k hk
        constructor
        · omega
        · rw [List.length_cons]
          omega

lemma buildRegs_lookup (lineY : ℤ) (bs : List Box) : ∀ (n i : Nat),
    i < bs.length →
    lookupKey (buildRegs lineY n bs) (n + i)
      = some (registeredRecord (bs.getD i defaultBox) lineY) := by
  induction bs with
  | nil =>
    intro n i hi
    simp at hi
  | cons b bs ih =>
    intro n i hi
    rw [show buildRegs lineY n (b :: bs)
        = (n, registeredRecord b lineY) :: buildRegs lineY (n + 1) bs from rfl]
    cases i with
    | zero =>
      rw [show n + 0 = n from rfl]
      rw [show lookupKey ((n, registeredRecord b lineY)
          :: buildRegs lineY (n + 1) bs) n
        = if n = n then some (registeredRecord b lineY)
          else lookupKey (buildRegs lineY (n + 1) bs) n from rfl, if_pos rfl]
      rfl
    | succ i =>
      have hne : n ≠ n + (i + 1) := by omega
      rw [show lookupKey ((n, registeredRecord b lineY)
          :: buildRegs lineY (n + 1) bs) (n + (i + 1))
        = if n = n + (i + 1) then some (registeredRecord b lineY)
          else lookupKey (buildRegs lineY (n + 1) bs) (n + (i + 1)) from rfl,
        if_neg hne]
      rw [show n + (i + 1) = (n + 1) + i from by omega]
      rw [List.length_cons] at hi
      rw [ih (n + 1) i (by omega)]
      rfl

lemma registerAll_spec (lineY : ℤ) (bs : List Box) : ∀ (s : TrackerState),
    (∀ k ∈ dictKeys s.vehicles, k < s.next_vehicle_id) →
    (registerAll lineY bs s).vehicles
        = s.vehicles ++ buildRegs lineY s.next_vehicle_id bs ∧
    (registerAll lineY bs s).next_vehicle_id
        = s.next_vehicle_id + bs.length ∧
    (registerAll lineY bs s).max_disappeared = s.max_disappeared ∧
    (registerAll lineY bs s).min_overlap_ratio = s.min_overlap_ratio := by
  induction bs with
  | nil =>
    intro s h
    refine ⟨?_, rfl, rfl, rfl⟩
    rw [show buildRegs lineY s.next_vehicle_id [] = [] from rfl]
    simp [registerAll]
  | cons b bs ih =>
    intro s h
    have hnm : s.next_vehicle_id ∉ dictKeys s.vehicles :=
      fun hc => lt_irrefl _ (h _ hc)
    obtain ⟨r1, r2, r3, r4⟩ := registerVehicle_spec s b lineY hnm
    have h' : ∀ k ∈ dictKeys (registerVehicle s b lineY).vehicles,
        k < (registerVehicle s b lineY).next_vehicle_id := by
      intro k hk
      rw [r1, dictKeys_append] at hk
      rw [r2]
      rcases List.mem_append.1 hk with hk | hk
      · exact (h k hk).trans (Nat.lt_succ_self _)
      · rw [show dictKeys [(s.next_vehicle_id, registeredRecord b lineY)]
            = [s.next_vehicle_id] from rfl] at hk
        rw [List.mem_singleton.1 hk]
        exact Nat.lt_succ_self _
    obtain ⟨i1, i2, i3, i4⟩ := ih (registerVehicle s b lineY) h'
    have hfold : registerAll lineY (b :: bs) s
        = registerAll lineY bs (registerVehicle s b lineY) := rfl
    refine ⟨?_, ?_, ?_, ?_⟩
    · rw [hfold, i1, r1, r2]
      rw [show buildRegs lineY s.next_vehicle_id (b :: bs)
          = (s.next_vehicle_id, registeredRecord b lineY)
            :: buildRegs lineY (s.next_vehicle_id + 1) bs from rfl]
      simp
    · rw [hfold, i2, r2, List.length_cons]
      omega
    · rw [hfold, i3, r3]
    · rw [hfold, i4, r4]

/-- The boxes the registration loop actually registers: those whose index
is in range and was never claimed, in index order. -/
def selectedBoxes (boxes : List Box) (usedBboxes : List Nat) : List Box :=
  ((List.range boxes.length).filter (fun i => i ∉ usedBboxes)).map
    (fun i => boxes.getD i defaultBox)

lemma registerUnmatched_eq (boxes : List Box) (lineY : ℤ)
    (used : List Nat) (s : TrackerState) :
    registerUnmatched boxes lineY used s
      = registerAll lineY (selectedBoxes boxes used) s := by
  unfold registerUnmatched registerAll selectedBoxes
  generalize List.range boxes.length = l
  induction l generalizing s with
  | nil => rfl
  | cons i l ih =>
    rw [List.foldl_cons]
    by_cases hi : i ∈ used
    · rw [if_pos hi]
      rw [show List.filter (fun i => decide (i ∉ used)) (i :: l)
          = List.filter (fun i => decide (i ∉ used)) l from by
        simp [List.filter, hi]]
      exact ih s
    · rw [if_neg hi]
      rw [show List.filter (fun i => decide (i ∉ used)) (i :: l)
          = i :: List.filter (fun i => decide (i ∉ used)) l from by
        simp [List.filter, hi]]
      rw [List.map_cons, List.foldl_cons]
      exact ih (registerVehicle s (boxes.getD i defaultBox) lineY)

/-! ### The three branches of `update`, and invariant preservation -/

lemma trackerUpdate_empty_boxes (s : TrackerState) (lineY : ℤ) :
    trackerUpdate s [] lineY = { s with
      vehicles := (dictKeys s.vehicles).foldl
        (disappearStep s.max_disappeared []) s.vehicles } := by
  unfold trackerUpdate
  rw [if_pos rfl]

lemma trackerUpdate_empty_vehicles (s : TrackerState) (boxes : List Box)
    (lineY : ℤ) (hb : boxes ≠ []) (hv : s.vehicles = []) :
    trackerUpdate s boxes lineY = registerAll lineY boxes s := by
  unfold trackerUpdate
  rw [if_neg hb, if_pos hv]

lemma trackerUpdate_main (s : TrackerState) (boxes : List Box) (lineY : ℤ)
    (hb : boxes ≠ []) (hv : s.vehicles ≠ []) :
    trackerUpdate s boxes lineY =
      registerUnmatched boxes lineY
        (s.vehicles.foldl (matchVehicleStep boxes lineY)
          ⟨s, [], []⟩).used_bboxes
        { (s.vehicles.foldl (matchVehicleStep boxes lineY)
            ⟨s, [], []⟩).state with
          vehicles := (dictKeys s.vehicles).foldl
            (disappearStep s.max_disappeared
              (s.vehicles.foldl (matchVehicleStep boxes lineY)
                ⟨s, [], []⟩).used_vehicles)
            (s.vehicles.foldl (matchVehicleStep boxes lineY)
              ⟨s, [], []⟩).state.vehicles } := by
  unfold trackerUpdate
  rw [if_neg hb, if_neg hv]

lemma trackerInv_update (s : TrackerState) (boxes : List Box) (lineY : ℤ)
    (hInv : TrackerInv s) :
    TrackerInv (trackerUpdate s boxes lineY) ∧
    s.next_vehicle_id ≤ (trackerUpdate s boxes lineY).next_vehicle_id ∧
    (∀ k ∈ dictKeys (trackerUpdate s boxes lineY).vehicles,
      k ∈ dictKeys s.vehicles ∨ s.next_vehicle_id ≤ k) := by
  obtain ⟨hsort, hbound⟩ := hInv
  by_cases hb : boxes = []
  · subst hb
    rw [trackerUpdate_empty_boxes]
    have hkeys := disappearFold_keys s.max_disappeared []
      (dictKeys s.vehicles) s.vehicles
    refine ⟨⟨hsort.sublist hkeys, ?_⟩, le_refl _, ?_⟩
    · intro k hk
      exact hbound k (hkeys.subset hk)
    · intro k hk
      exact Or.inl (hkeys.subset hk)
  · by_cases hv : s.vehicles = []
    · rw [trackerUpdate_empty_vehicles s boxes lineY hb hv]
      obtain ⟨r1, r2, r3, r4⟩ := registerAll_spec lineY boxes s
        (fun k hk => hbound k hk)
      obtain ⟨bsort, bbounds⟩ := buildRegs_keys_bounds lineY boxes
        s.next_vehicle_id
      have hveq : (registerAll lineY boxes s).vehicles
          = buildRegs lineY s.next_vehicle_id boxes := by
        rw [r1, hv, List.nil_append]
      refine ⟨⟨?_, ?_⟩, ?_, ?_⟩
      · rw [hveq]
        exact bsort
      · intro k hk
        rw [hveq] at hk
        rw [r2]
        exact (bbounds k hk).2
      · rw [r2]
        exact Nat.le_add_right _ _
      · intro k hk
        rw [hveq] at hk
        exact Or.inr (bbounds k hk).1
    · obtain ⟨m1, m2, m3, m4⟩ := matchFold_state boxes lineY s.vehicles
        ⟨s, [], []⟩
      rw [trackerUpdate_main s boxes lineY hb hv]
      set M := s.vehicles.foldl (matchVehicleStep boxes lineY)
        (⟨s, [], []⟩ : MatchAcc) with hM
      have m1' : M.state.next_vehicle_id = s.next_vehicle_id := m1
      have m4' : dictKeys M.state.vehicles = dictKeys s.vehicles := m4
      set d2 := (dictKeys s.vehicles).foldl
        (disappearStep s.max_disappeared M.used_vehicles)
        M.state.vehicles with hd2eq
      have hd2 : (dictKeys d2).Sublist (dictKeys s.vehicles) := by
        rw [hd2eq, ← m4']
        exact disappearFold_keys _ _ _ _
      have hs3bound : ∀ k ∈ dictKeys ({ M.state with vehicles := d2 }
          : TrackerState).vehicles,
          k < ({ M.state with vehicles := d2 } : TrackerState).next_vehicle_id := by
        intro k hk
        rw [show ({ M.state with vehicles := d2 } : TrackerState).vehicles
            = d2 from rfl] at hk
        rw [show ({ M.state with vehicles := d2 }
            : TrackerState).next_vehicle_id = M.state.next_vehicle_id from rfl,
          m1']
        exact hbound k (hd2.subset hk)
      rw [registerUnmatched_eq]
      obtain ⟨r1, r2, r3, r4⟩ := registerAll_spec lineY
        (selectedBoxes boxes M.used_bboxes)
        { M.state with vehicles := d2 } hs3bound
      obtain ⟨bsort, bbounds⟩ := buildRegs_keys_bounds lineY
        (selectedBoxes boxes M.used_bboxes) s.next_vehicle_id
      have hveq : (registerAll lineY (selectedBoxes boxes M.used_bboxes)
          { M.state with vehicles := d2 }).vehicles
          = d2 ++ buildRegs lineY s.next_vehicle_id
              (selectedBoxes boxes M.used_bboxes) := by
        rw [r1]
        rw [show ({ M.state with vehicles := d2 } : TrackerState).vehicles
            = d2 from rfl]
        rw [show ({ M.state with vehicles := d2 }
            : TrackerState).next_vehicle_id = M.state.next_vehicle_id from rfl,
          m1']
      have hnexteq : (registerAll lineY (selectedBoxes boxes M.used_bboxes)
          { M.state with vehicles := d2 }).next_vehicle_id
          = s.next_vehicle_id
            + (selectedBoxes boxes M.used_bboxes).length := by
        rw [r2]
        rw [show ({ M.state with vehicles := d2 }
            : TrackerState).next_vehicle_id = M.state.next_vehicle_id from rfl,
          m1']
      refine ⟨⟨?_, ?_⟩, ?_, ?_⟩
      · rw [hveq, dictKeys_append, List.Sorted, List.pairwise_append]
        refine ⟨hsort.sublist hd2, bsort, ?_⟩
        intro a ha c hc
        exact lt_of_lt_of_le (hbound a (hd2.subset ha)) (bbounds c hc).1
      · intro k hk
        rw [hveq, dictKeys_append] at hk
        rw [hnexteq]
        rcases List.mem_append.1 hk with hk | hk
        · exact lt_of_lt_of_le (hbound k (hd2.subset hk))
            (Nat.le_add_right _ _)
        · exact (bbounds k hk).2
      · rw [hnexteq]
        exact Nat.le_add_right _ _
      · intro k hk
        rw [hveq, dictKeys_append] at hk
        rcases List.mem_append.1 hk with hk | hk
        · exact Or.inl (hd2.subset hk)
        · exact Or.inr (bbounds k hk).1

/-- What one `update` call can do to an entry that was present before it:
either the entry survives — as a freshly matched record (`disappeared = 0`,
`crossed_line` only ever raised) or as the old record with `disappeared`
bumped by one — or it has been deleted. -/
lemma trackerUpdate_lookup_old (s : TrackerState) (boxes : List Box)
    (lineY : ℤ) (vid : Nat) (v : Vehicle) (hInv : TrackerInv s)
    (hvid : lookupKey s.vehicles vid = some v) :
    (∃ d0, lookupKey (trackerUpdate s boxes lineY).vehicles vid = some d0 ∧
      ((d0.disappeared = 0 ∧
          (v.crossed_line = true → d0.crossed_line = true)) ∨
        d0 = { v with disappeared := v.disappeared + 1 })) ∨
    lookupKey (trackerUpdate s boxes lineY).vehicles vid = none := by
  obtain ⟨hsort, hbound⟩ := hInv
  have hnd : (dictKeys s.vehicles).Nodup := hsort.nodup
  have hmem : vid ∈ dictKeys s.vehicles := by
    rw [← lookupKey_isSome, hvid]
    rfl
  by_cases hb : boxes = []
  · subst hb
    rw [trackerUpdate_empty_boxes]
    have hveh : ({ s with vehicles := (dictKeys s.vehicles).foldl (disappearStep s.max_disappeared []) s.vehicles } : TrackerState).vehicles = (dictKeys s.vehicles).foldl (disappearStep s.max_disappeared []) s.vehicles := rfl
    rw [hveh]
    rw [disappearFold_lookup s.max_disappeared [] (dictKeys s.vehicles)
      s.vehicles hnd hnd vid]
    rw [if_pos ⟨hmem, List.not_mem_nil vid⟩, hvid, Option.some_bind]
    by_cases hover : s.max_disappeared < v.disappeared + 1
    · rw [if_pos hover]
      exact Or.inr rfl
    · rw [if_neg hover]
      exact Or.inl ⟨_, rfl, Or.inr rfl⟩
  · by_cases hv : s.vehicles = []
    · rw [hv] at hvid
      cases hvid
    · obtain ⟨m1, m2, m3, m4⟩ := matchFold_state boxes lineY s.vehicles
        ⟨s, [], []⟩
      rw [trackerUpdate_main s boxes lineY hb hv]
      set M := s.vehicles.foldl (matchVehicleStep boxes lineY)
        (⟨s, [], []⟩ : MatchAcc) with hM
      have m1' : M.state.next_vehicle_id = s.next_vehicle_id := m1
      have m4' : dictKeys M.state.vehicles = dictKeys s.vehicles := m4
      have hndM : (dictKeys M.state.vehicles).Nodup := by
        rw [m4']
        exact hnd
      set d2 := (dictKeys s.vehicles).foldl
        (disappearStep s.max_disappeared M.used_vehicles)
        M.state.vehicles with hd2eq
      have hd2lk : ∀ k, lookupKey d2 k =
          if k ∈ dictKeys s.vehicles ∧ k ∉ M.used_vehicles then
            (lookupKey M.state.vehicles k).bind (fun w =>
              if s.max_disappeared < w.disappeared + 1 then none
              else some { w with disappeared := w.disappeared + 1 })
          else lookupKey M.state.vehicles k := by
        intro k
        rw [hd2eq]
        exact disappearFold_lookup _ _ _ _ hndM hnd k
      set s3 : TrackerState := { M.state with vehicles := d2 } with hs3
      have hs3bound : ∀ k ∈ dictKeys s3.vehicles, k < s3.next_vehicle_id := by
        intro k hk
        rw [show s3.vehicles = d2 from rfl] at hk
        rw [show s3.next_vehicle_id = M.state.next_vehicle_id from rfl, m1']
        have : (dictKeys d2).Sublist (dictKeys s.vehicles) := by
          rw [hd2eq, ← m4']
          exact disappearFold_keys _ _ _ _
        exact hbound k (this.subset hk)
      rw [registerUnmatched_eq]
      obtain ⟨r1, r2, r3, r4⟩ := registerAll_spec lineY
        (selectedBoxes boxes M.used_bboxes) s3 hs3bound
      obtain ⟨bsort, bbounds⟩ := buildRegs_keys_bounds lineY
        (selectedBoxes boxes M.used_bboxes) s3.next_vehicle_id
      have hvltn : vid < s3.next_vehicle_id := by
        rw [show s3.next_vehicle_id = M.state.next_vehicle_id from rfl, m1']
        exact hbound vid hmem
      have hnotnew : vid ∉ dictKeys (buildRegs lineY s3.next_vehicle_id
          (selectedBoxes boxes M.used_bboxes)) := by
        intro hc
        exact absurd (bbounds vid hc).1 (not_le.2 hvltn)
      have hnewnone : lookupKey (buildRegs lineY s3.next_vehicle_id
          (selectedBoxes boxes M.used_bboxes)) vid = none :=
        (lookupKey_eq_none _ _).2 hnotnew
      rw [r1]
      rw [show s3.vehicles = d2 from rfl]
      by_cases hused : vid ∈ M.used_vehicles
      · obtain ⟨v2, hv2, hmono⟩ := matchFold_mono boxes lineY s.vehicles
          ⟨s, [], []⟩ vid v hvid
        rw [← hM] at hv2
        have hz : UsedZero M := by
          rw [hM]
          apply matchFold_usedZero
          intro k hk
          cases hk
        have hv2z : v2.disappeared = 0 := hz vid hused v2 hv2
        have hd2v : lookupKey d2 vid = some v2 := by
          rw [hd2lk vid, if_neg (fun hc => hc.2 hused), hv2]
        left
        exact ⟨v2, lookupKey_append_of_some _ hd2v, Or.inl ⟨hv2z, hmono⟩⟩
      · have hunch : lookupKey M.state.vehicles vid = some v := by
          rw [hM]
          rw [matchFold_lookup_unused boxes lineY s.vehicles ⟨s, [], []⟩ vid
            (by rw [← hM]; exact hused)]
          exact hvid
        have hd2v : lookupKey d2 vid =
            if s.max_disappeared < v.disappeared + 1 then none
            else some { v with disappeared := v.disappeared + 1 } := by
          rw [hd2lk vid, if_pos ⟨hmem, hused⟩, hunch, Option.some_bind]
        by_cases hover : s.max_disappeared < v.disappeared + 1
        · rw [if_pos hover] at hd2v
          right
          rw [lookupKey_append_of_none _ hd2v]
          exact hnewnone
        · rw [if_neg hover] at hd2v
          left
          exact ⟨_, lookupKey_append_of_some _ hd2v, Or.inr rfl⟩

/-- A sequence of `update` calls, one per frame. -/
def trackerRun (s : TrackerState) (frames : List (List Box × ℤ)) :
    TrackerState :=
  frames.foldl (fun st f => trackerUpdate st f.1 f.2) s

lemma trackerRun_not_revived (frames : List (List Box × ℤ)) :
    ∀ (s : TrackerState) (x : Nat), TrackerInv s → x ∉ dictKeys s.vehicles →
    x < s.next_vehicle_id → x ∉ dictKeys (trackerRun s frames).vehicles := by
  induction frames with
  | nil =>
    intro s x _ hx _
    exact hx
  | cons f frames ih =>
    intro s x hInv hx hlt
    obtain ⟨hInv', hnext, hkeys⟩ := trackerInv_update s f.1 f.2 hInv
    have hx' : x ∉ dictKeys (trackerUpdate s f.1 f.2).vehicles := by
      intro hc
      rcases hkeys x hc with hc | hc
      · exact hx hc
      · omega
    exact ih (trackerUpdate s f.1 f.2) x hInv' hx'
      (lt_of_lt_of_le hlt hnext)

lemma lookupKey_filter_none {α : Type} (p : Nat × α → Bool)
    (d : List (Nat × α)) (k : Nat) (v : α) (hnd : (dictKeys d).Nodup)
    (hv : lookupKey d k = some v) (hp : p (k, v) = false) :
    lookupKey (d.filter p) k = none := by
  induction d with
  | nil => cases hv
  | cons e rest ih =>
    obtain ⟨k', v'⟩ := e
    rw [dictKeys_cons, List.nodup_cons] at hnd
    by_cases hk : k' = k
    · subst hk
      rw [show lookupKey ((k', v') :: rest) k' =
          if k' = k' then some v' else lookupKey rest k' from rfl,
        if_pos rfl] at hv
      injection hv with hv
      subst hv
      have hrest : lookupKey (rest.filter p) k' = none := by
        have : lookupKey rest k' = none := (lookupKey_eq_none _ _).2 hnd.1
        rw [lookupKey_eq_none]
        intro hc
        have hsub : (dictKeys (rest.filter p)).Sublist (dictKeys rest) :=
          (List.filter_sublist rest).map Prod.fst
        exact hnd.1 (hsub.subset hc)
      rw [List.filter_cons, hp]
      exact hrest
    · rw [show lookupKey ((k', v') :: rest) k =
          if k' = k then some v' else lookupKey rest k from rfl,
        if_neg hk] at hv
      rw [List.filter_cons]
      cases hpk : p (k', v') with
      | false =>
        rw [if_neg Bool.false_ne_true]
        exact ih hnd.2 hv
      | true =>
        rw [if_pos rfl]
        rw [show lookupKey ((k', v') :: rest.filter p) k =
            if k' = k then some v' else lookupKey (rest.filter p) k from rfl,
          if_neg hk]
        exact ih hnd.2 hv

/-- C7: across any sequence of tracker operations no two simultaneously
live vehicles share an id, ids are handed out in strictly increasing order
(the key list of the insertion-ordered dict is strictly sorted and bounded
by the id counter, and this is preserved by `update`), and an id that is
absent and below the counter — in particular any removed id — is never
assigned again by any later sequence of updates. -/
theorem tracker_id_uniqueness (s : TrackerState) (boxes : List Box)
    (lineY : ℤ) (frames : List (List Box × ℤ)) (x : Nat)
    (hInv : TrackerInv s) :
    (dictKeys s.vehicles).Sorted (· < ·) ∧
    (dictKeys s.vehicles).Nodup ∧
    TrackerInv (trackerUpdate s boxes lineY) ∧
    s.next_vehicle_id ≤ (trackerUpdate s boxes lineY).next_vehicle_id ∧
    (∀ k ∈ dictKeys (trackerUpdate s boxes lineY).vehicles,
      k ∈ dictKeys s.vehicles ∨ s.next_vehicle_id ≤ k) ∧
    (x ∉ dictKeys s.vehicles → x < s.next_vehicle_id →
      x ∉ dictKeys (trackerRun s frames).vehicles) := by
  obtain ⟨hInv', hnext, hkeys⟩ := trackerInv_update s boxes lineY hInv
  exact ⟨hInv.1, hInv.1.nodup, hInv', hnext, hkeys,
    fun hx hlt => trackerRun_not_revived frames s x hInv hx hlt⟩

/-- A tracker state that has already lost id 0: the counter is at 2 and
only id 1 is live. -/
def exLostZero : TrackerState :=
  { next_vehicle_id := 2
    vehicles := [(1, ⟨⟨0, 0, 10, 10⟩, 0, false, ⟨0, 0, 10, 10⟩, false⟩)]
    max_disappeared := 10
    min_overlap_ratio := 3 / 10
    crossed_vehicles := [] }

/-- Witness for C7 at the concrete state `exLostZero`. -/
theorem tracker_id_uniqueness_witness :
    (dictKeys exLostZero.vehicles).Sorted (· < ·) ∧
    (dictKeys exLostZero.vehicles).Nodup ∧
    TrackerInv (trackerUpdate exLostZero [⟨50, 50, 10, 10⟩] 100) ∧
    exLostZero.next_vehicle_id ≤
      (trackerUpdate exLostZero [⟨50, 50, 10, 10⟩] 100).next_vehicle_id ∧
    (∀ k ∈ dictKeys
        (trackerUpdate exLostZero [⟨50, 50, 10, 10⟩] 100).vehicles,
      k ∈ dictKeys exLostZero.vehicles ∨ exLostZero.next_vehicle_id ≤ k) ∧
    (0 ∉ dictKeys exLostZero.vehicles → 0 < exLostZero.next_vehicle_id →
      0 ∉ dictKeys
        (trackerRun exLostZero [([⟨3, 3, 10, 10⟩], 100)]).vehicles) :=
  tracker_id_uniqueness exLostZero [⟨50, 50, 10, 10⟩] 100
    [([⟨3, 3, 10, 10⟩], 100)] 0 (by constructor <;> decide)

/-- C4: for a tracked vehicle the line-crossing check sets `crossed_line`
and records the id in `crossed_vehicles` exactly when the box bottom
`y + h` has reached `lineY` while the flag is still false, and is a full
no-op otherwise (hence idempotent once the flag is set); per-vehicle, the
stored record becomes the flagged copy precisely under that trigger; and
across a full `update` call a vehicle that is still present never has its
flag reset. -/
theorem crossed_line_one_way (s : TrackerState) (vid : Nat) (bbox : Box)
    (lineY : ℤ) (v : Vehicle) (boxes : List Box) (v' : Vehicle)
    (hv : lookupKey s.vehicles vid = some v) (hInv : TrackerInv s)
    (hv' : lookupKey (trackerUpdate s boxes lineY).vehicles vid = some v') :
    checkLineCrossing s vid bbox lineY =
      (if lineY ≤ bbox.y + bbox.h ∧ v.crossed_line = false then
        { s with
          vehicles := setKey s.vehicles vid { v with crossed_line := true }
          crossed_vehicles := setInsert s.crossed_vehicles vid }
      else s) ∧
    lookupKey (checkLineCrossing s vid bbox lineY).vehicles vid =
      some (if lineY ≤ bbox.y + bbox.h ∧ v.crossed_line = false then
        { v with crossed_line := true } else v) ∧
    (v.crossed_line = true → v'.crossed_line = true) := by
  refine ⟨?_, ?_, fun hc => ?_⟩
  · unfold checkLineCrossing
    rw [hv]
  · rw [checkLineCrossing_lookup, if_pos rfl, hv, Option.map_some']
  · rcases trackerUpdate_lookup_old s boxes lineY vid v hInv hv with
      ⟨d0, hd0, hprop⟩ | hnone
    · rw [hd0] at hv'
      injection hv' with hv'
      subst hv'
      rcases hprop with ⟨_, hmono⟩ | hbump
      · exact hmono hc
      · rw [hbump]
        exact hc
    · rw [hnone] at hv'
      cases hv'

/-- A tracker state with a single vehicle that has already crossed. -/
def exCrossed : TrackerState :=
  { next_vehicle_id := 1
    vehicles := [(0, ⟨⟨0, 90, 10, 10⟩, 0, true, ⟨0, 90, 10, 10⟩, false⟩)]
    max_disappeared := 10
    min_overlap_ratio := 3 / 10
    crossed_vehicles := [0] }

/-- Like `exCrossed` but the vehicle has not crossed yet. -/
def exUncrossed : TrackerState :=
  { next_vehicle_id := 1
    vehicles := [(0, ⟨⟨0, 90, 10, 10⟩, 0, false, ⟨0, 90, 10, 10⟩, false⟩)]
    max_disappeared := 10
    min_overlap_ratio := 3 / 10
    crossed_vehicles := [] }

/-- Witness for C4 at two concrete states: at `exUncrossed` the box bottom
91 + 10 reaches the line 100 while the flag is false, so the trigger fires,
flags the record and records id 0; at `exCrossed` the vehicle is matched by
the detection (0,91,10,10) and its flag stays true across the update. -/
theorem crossed_line_one_way_witness :
    checkLineCrossing exUncrossed 0 ⟨0, 91, 10, 10⟩ 100 =
      (if (100 : ℤ) ≤ 91 + 10 ∧
          (⟨⟨0, 90, 10, 10⟩, 0, false, ⟨0, 90, 10, 10⟩, false⟩
            : Vehicle).crossed_line = false then
        { exUncrossed with
          vehicles := setKey exUncrossed.vehicles 0
            { (⟨⟨0, 90, 10, 10⟩, 0, false, ⟨0, 90, 10, 10⟩, false⟩
                : Vehicle) with crossed_line := true }
          crossed_vehicles := setInsert exUncrossed.crossed_vehicles 0 }
      else exUncrossed) ∧
    lookupKey
        (checkLineCrossing exUncrossed 0 ⟨0, 91, 10, 10⟩ 100).vehicles 0 =
      some (if (100 : ℤ) ≤ 91 + 10 ∧
          (⟨⟨0, 90, 10, 10⟩, 0, false, ⟨0, 90, 10, 10⟩, false⟩
            : Vehicle).crossed_line = false then
        { (⟨⟨0, 90, 10, 10⟩, 0, false, ⟨0, 90, 10, 10⟩, false⟩
            : Vehicle) with crossed_line := true }
      else ⟨⟨0, 90, 10, 10⟩, 0, false, ⟨0, 90, 10, 10⟩, false⟩) ∧
    (⟨⟨0, 91, 10, 10⟩, 0, true, ⟨0, 90, 10, 10⟩, false⟩
      : Vehicle).crossed_line = true := by
  have hA := crossed_line_one_way exUncrossed 0 ⟨0, 91, 10, 10⟩ 100
    ⟨⟨0, 90, 10, 10⟩, 0, false, ⟨0, 90, 10, 10⟩, false⟩ [⟨0, 91, 10, 10⟩]
    ⟨⟨0, 91, 10, 10⟩, 0, true, ⟨0, 90, 10, 10⟩, false⟩ (by decide)
    (by constructor <;> decide)
    (by norm_num [trackerUpdate, exUncrossed, matchVehicleStep, bestMatch,
      bestMatchStep, calculateOverlap, defaultBox, List.range, List.range',
      List.foldl, registerUnmatched, disappearStep, checkLineCrossing,
      modifyKey, lookupKey, setKey, setInsert, dictKeys, matchedUpdate,
      eraseKey])
  have hB := crossed_line_one_way exCrossed 0 ⟨0, 91, 10, 10⟩ 100
    ⟨⟨0, 90, 10, 10⟩, 0, true, ⟨0, 90, 10, 10⟩, false⟩ [⟨0, 91, 10, 10⟩]
    ⟨⟨0, 91, 10, 10⟩, 0, true, ⟨0, 90, 10, 10⟩, false⟩ (by decide)
    (by constructor <;> decide)
    (by norm_num [trackerUpdate, exCrossed, matchVehicleStep, bestMatch,
      bestMatchStep, calculateOverlap, defaultBox, List.range, List.range',
      List.foldl, registerUnmatched, disappearStep, checkLineCrossing,
      modifyKey, lookupKey, setKey, setInsert, dictKeys, matchedUpdate,
      eraseKey])
  exact ⟨hA.1, hA.2.1, hB.2.2 rfl⟩

/-- C10: `update` returns the tracker's full internal table, so identities
that went unmatched this frame (disappeared count between 1 and the
threshold) are still in the returned mapping, carrying the stale bbox of
their last matched frame with the count bumped by one; only
`get_active_vehicles` — the filter keeping `disappeared = 0` — excludes
them. -/
theorem update_returns_full_table (s : TrackerState) (boxes : List Box)
    (lineY : ℤ) (vid : Nat) (v v' : Vehicle) (hInv : TrackerInv s)
    (hv : lookupKey s.vehicles vid = some v)
    (hv' : lookupKey (trackerUpdateReturn s boxes lineY) vid = some v')
    (hd : v'.disappeared ≠ 0) :
    trackerUpdateReturn s boxes lineY
        = (trackerUpdate s boxes lineY).vehicles ∧
    getActiveVehicles (trackerUpdate s boxes lineY)
        = (trackerUpdate s boxes lineY).vehicles.filter
            (fun e => e.2.disappeared = 0) ∧
    v'.bbox = v.bbox ∧
    v'.disappeared = v.disappeared + 1 ∧
    lookupKey (getActiveVehicles (trackerUpdate s boxes lineY)) vid
        = none := by
  have hret : trackerUpdateReturn s boxes lineY
      = (trackerUpdate s boxes lineY).vehicles := rfl
  rw [hret] at hv'
  obtain ⟨hInv', _, _⟩ := trackerInv_update s boxes lineY hInv
  rcases trackerUpdate_lookup_old s boxes lineY vid v hInv hv with
    ⟨d0, hd0, hprop⟩ | hnone
  · rw [hd0] at hv'
    injection hv' with hv'
    subst hv'
    rcases hprop with ⟨hz, _⟩ | hbump
    · exact absurd hz hd
    · refine ⟨rfl, rfl, ?_, ?_, ?_⟩
      · rw [hbump]
      · rw [hbump]
      · apply lookupKey_filter_none _ _ _ d0 hInv'.1.nodup hd0
        rw [decide_eq_false hd]
  · rw [hnone] at hv'
    cases hv'

/-- A tracker state with one live vehicle about to go unmatched. -/
def exStale : TrackerState :=
  { next_vehicle_id := 1
    vehicles := [(0, ⟨⟨0, 0, 10, 10⟩, 0, false, ⟨0, 0, 10, 10⟩, false⟩)]
    max_disappeared := 10
    min_overlap_ratio := 3 / 10
    crossed_vehicles := [] }

/-- Witness for C10: after an update whose only detection is far away,
id 0 is still in the returned table with its stale bbox and
`disappeared = 1`, but absent from the active set. -/
theorem update_returns_full_table_witness :
    trackerUpdateReturn exStale [⟨200, 200, 10, 10⟩] 100
        = (trackerUpdate exStale [⟨200, 200, 10, 10⟩] 100).vehicles ∧
    getActiveVehicles (trackerUpdate exStale [⟨200, 200, 10, 10⟩] 100)
        = (trackerUpdate exStale [⟨200, 200, 10, 10⟩] 100).vehicles.filter
            (fun e => e.2.disappeared = 0) ∧
    (⟨⟨0, 0, 10, 10⟩, 1, false, ⟨0, 0, 10, 10⟩, false⟩ : Vehicle).bbox
        = (⟨⟨0, 0, 10, 10⟩, 0, false, ⟨0, 0, 10, 10⟩, false⟩ : Vehicle).bbox ∧
    (⟨⟨0, 0, 10, 10⟩, 1, false, ⟨0, 0, 10, 10⟩, false⟩
        : Vehicle).disappeared
        = (⟨⟨0, 0, 10, 10⟩, 0, false, ⟨0, 0, 10, 10⟩, false⟩
            : Vehicle).disappeared + 1 ∧
    lookupKey
        (getActiveVehicles (trackerUpdate exStale [⟨200, 200, 10, 10⟩] 100))
        0 = none :=
  update_returns_full_table exStale [⟨200, 200, 10, 10⟩] 100 0
    ⟨⟨0, 0, 10, 10⟩, 0, false, ⟨0, 0, 10, 10⟩, false⟩
    ⟨⟨0, 0, 10, 10⟩, 1, false, ⟨0, 0, 10, 10⟩, false⟩
    (by constructor <;> decide) (by decide) (by decide) (by decide)

/-- C1: on a frame with detections and a non-empty tracked set, `update` is
the match loop folded over the vehicle snapshot in dict order (ascending
ids under the tracker invariant), followed by the disappearance loop and
the registration loop; the match scan selects, among not-yet-claimed
detections, one of maximal IoU against the vehicle's stored bbox and only
when that IoU strictly exceeds `min_overlap_ratio` (with a nonnegative
threshold, no acceptance happens when every unclaimed IoU is at or below
it); acceptance rewrites the record's bbox to the claimed detection, resets
`disappeared` to 0, claims the detection and re-runs the line-crossing
check, while rejection leaves the accumulator untouched; the disappearance
loop bumps every unmatched vehicle's count by one and deletes the record
exactly when the new count strictly exceeds `max_disappeared`; and the
registration loop appends, in index order, a fresh record under ids
`next, next+1, …` for exactly the detections left unclaimed. -/
theorem tracker_update_greedy_matching :
    (∀ (s : TrackerState) (boxes : List Box) (lineY : ℤ),
      boxes ≠ [] → s.vehicles ≠ [] →
      trackerUpdate s boxes lineY =
        registerUnmatched boxes lineY
          (s.vehicles.foldl (matchVehicleStep boxes lineY)
            ⟨s, [], []⟩).used_bboxes
          { (s.vehicles.foldl (matchVehicleStep boxes lineY)
              ⟨s, [], []⟩).state with
            vehicles := (dictKeys s.vehicles).foldl
              (disappearStep s.max_disappeared
                (s.vehicles.foldl (matchVehicleStep boxes lineY)
                  ⟨s, [], []⟩).used_vehicles)
              (s.vehicles.foldl (matchVehicleStep boxes lineY)
                ⟨s, [], []⟩).state.vehicles }) ∧
    (∀ s : TrackerState, TrackerInv s →
      (dictKeys s.vehicles).Sorted (· < ·)) ∧
    (∀ (vb : Box) (boxes : List Box) (used : List Nat) (thr : ℚ) (j : Nat),
      (bestMatch vb boxes used thr).2 = some j →
      j < boxes.length ∧ j ∉ used ∧
      (bestMatch vb boxes used thr).1 =
        calculateOverlap vb (boxes.getD j defaultBox) ∧
      thr < (bestMatch vb boxes used thr).1 ∧
      ∀ k < boxes.length, k ∉ used →
        calculateOverlap vb (boxes.getD k defaultBox) ≤
          (bestMatch vb boxes used thr).1) ∧
    (∀ (vb : Box) (boxes : List Box) (used : List Nat) (thr : ℚ),
      0 ≤ thr → (bestMatch vb boxes used thr).2 = none →
      ∀ k < boxes.length, k ∉ used →
        calculateOverlap vb (boxes.getD k defaultBox) ≤ thr) ∧
    (∀ (boxes : List Box) (lineY : ℤ) (acc : MatchAcc) (e : Nat × Vehicle)
      (j : Nat),
      (bestMatch e.2.bbox boxes acc.used_bboxes
        acc.state.min_overlap_ratio).2 = some j →
      matchVehicleStep boxes lineY acc e = matchedAcc boxes lineY acc e j ∧
      lookupKey (matchVehicleStep boxes lineY acc e).state.vehicles e.1 =
        (lookupKey acc.state.vehicles e.1).map (fun v =>
          let v1 := matchedUpdate (boxes.getD j defaultBox) v
          if lineY ≤ (boxes.getD j defaultBox).y
              + (boxes.getD j defaultBox).h ∧ v1.crossed_line = false then
            { v1 with crossed_line := true }
          else v1)) ∧
    (∀ (boxes : List Box) (lineY : ℤ) (acc : MatchAcc) (e : Nat × Vehicle),
      (bestMatch e.2.bbox boxes acc.used_bboxes
        acc.state.min_overlap_ratio).2 = none →
      matchVehicleStep boxes lineY acc e = acc) ∧
    (∀ (maxD : Nat) (m l : List Nat) (d : List (Nat × Vehicle)),
      (dictKeys d).Nodup → l.Nodup → ∀ k : Nat,
      lookupKey (l.foldl (disappearStep maxD m) d) k =
        if k ∈ l ∧ k ∉ m then
          (lookupKey d k).bind (fun v =>
            if maxD < v.disappeared + 1 then none
            else some { v with disappeared := v.disappeared + 1 })
        else lookupKey d k) ∧
    (∀ (boxes : List Box) (lineY : ℤ) (used : List Nat) (s : TrackerState),
      (∀ k ∈ dictKeys s.vehicles, k < s.next_vehicle_id) →
      (registerUnmatched boxes lineY used s).vehicles =
        s.vehicles ++ buildRegs lineY s.next_vehicle_id
          (selectedBoxes boxes used)) ∧
    (∀ (lineY : ℤ) (bs : List Box) (n i : Nat), i < bs.length →
      lookupKey (buildRegs lineY n bs) (n + i) =
        some (registeredRecord (bs.getD i defaultBox) lineY)) := by
  refine ⟨?_, ?_, ?_, ?_, ?_, ?_, ?_, ?_, ?_⟩
  · intro s boxes lineY hb hv
    exact trackerUpdate_main s boxes lineY hb hv
  · intro s hInv
    exact hInv.1
  · intro vb boxes used thr j hj
    exact bestMatch_some vb boxes used thr j hj
  · intro vb boxes used thr hthr hn
    exact bestMatch_none vb boxes used thr hthr hn
  · intro boxes lineY acc e j hj
    refine ⟨?_, matchVehicleStep_lookup_self boxes lineY acc e j hj⟩
    rcases matchVehicleStep_cases boxes lineY acc e with ⟨_, hn⟩ | ⟨j', hj', hc⟩
    · rw [hn] at hj
      cases hj
    · rw [hj'] at hj
      injection hj with hj
      subst hj
      exact hc
  · intro boxes lineY acc e hn
    rcases matchVehicleStep_cases boxes lineY acc e with ⟨hc, _⟩ | ⟨j', hj', hc⟩
    · exact hc
    · rw [hj'] at hn
      cases hn
  · intro maxD m l d hnd hl k
    exact disappearFold_lookup maxD m l d hnd hl k
  · intro boxes lineY used s hb
    rw [registerUnmatched_eq]
    exact (registerAll_spec lineY (selectedBoxes boxes used) s hb).1
  · intro lineY bs n i hi
    exact buildRegs_lookup lineY bs n i hi

/-- Witness for C1, instantiating every clause at concrete inputs: the
state `exStale` (one vehicle at (0,0,10,10)), a close detection
(2,2,10,10) that matches it (IoU 64/136 > 3/10), and a far detection
(100,100,10,10) that matches nothing. -/
theorem tracker_update_greedy_matching_witness :
    trackerUpdate exStale [⟨2, 2, 10, 10⟩] 100 =
      registerUnmatched [⟨2, 2, 10, 10⟩] 100
        (exStale.vehicles.foldl (matchVehicleStep [⟨2, 2, 10, 10⟩] 100)
          ⟨exStale, [], []⟩).used_bboxes
        { (exStale.vehicles.foldl (matchVehicleStep [⟨2, 2, 10, 10⟩] 100)
            ⟨exStale, [], []⟩).state with
          vehicles := (dictKeys exStale.vehicles).foldl
            (disappearStep exStale.max_disappeared
              (exStale.vehicles.foldl (matchVehicleStep [⟨2, 2, 10, 10⟩] 100)
                ⟨exStale, [], []⟩).used_vehicles)
            (exStale.vehicles.foldl (matchVehicleStep [⟨2, 2, 10, 10⟩] 100)
              ⟨exStale, [], []⟩).state.vehicles } ∧
    (dictKeys exStale.vehicles).Sorted (· < ·) ∧
    (0 < [(⟨2, 2, 10, 10⟩ : Box)].length ∧ 0 ∉ ([] : List Nat) ∧
      (bestMatch ⟨0, 0, 10, 10⟩ [⟨2, 2, 10, 10⟩] [] (3 / 10)).1 =
        calculateOverlap ⟨0, 0, 10, 10⟩
          ([(⟨2, 2, 10, 10⟩ : Box)].getD 0 defaultBox) ∧
      3 / 10 < (bestMatch ⟨0, 0, 10, 10⟩ [⟨2, 2, 10, 10⟩] [] (3 / 10)).1 ∧
      ∀ k < [(⟨2, 2, 10, 10⟩ : Box)].length, k ∉ ([] : List Nat) →
        calculateOverlap ⟨0, 0, 10, 10⟩
            ([(⟨2, 2, 10, 10⟩ : Box)].getD k defaultBox) ≤
          (bestMatch ⟨0, 0, 10, 10⟩ [⟨2, 2, 10, 10⟩] [] (3 / 10)).1) ∧
    (∀ k < [(⟨100, 100, 10, 10⟩ : Box)].length, k ∉ ([] : List Nat) →
      calculateOverlap ⟨0, 0, 10, 10⟩
          ([(⟨100, 100, 10, 10⟩ : Box)].getD k defaultBox) ≤ 3 / 10) ∧
    (matchVehicleStep [⟨2, 2, 10, 10⟩] 100 ⟨exStale, [], []⟩
        (0, ⟨⟨0, 0, 10, 10⟩, 0, false, ⟨0, 0, 10, 10⟩, false⟩) =
      matchedAcc [⟨2, 2, 10, 10⟩] 100 ⟨exStale, [], []⟩
        (0, ⟨⟨0, 0, 10, 10⟩, 0, false, ⟨0, 0, 10, 10⟩, false⟩) 0 ∧
      lookupKey (matchVehicleStep [⟨2, 2, 10, 10⟩] 100 ⟨exStale, [], []⟩
          (0, ⟨⟨0, 0, 10, 10⟩, 0, false,
            ⟨0, 0, 10, 10⟩, false⟩)).state.vehicles
          (0, (⟨⟨0, 0, 10, 10⟩, 0, false, ⟨0, 0, 10, 10⟩, false⟩
            : Vehicle)).1 =
        (lookupKey (⟨exStale, [], []⟩ : MatchAcc).state.vehicles
          (0, (⟨⟨0, 0, 10, 10⟩, 0, false, ⟨0, 0, 10, 10⟩, false⟩
            : Vehicle)).1).map (fun v =>
          let v1 := matchedUpdate
            ([(⟨2, 2, 10, 10⟩ : Box)].getD 0 defaultBox) v
          if (100 : ℤ) ≤ ([(⟨2, 2, 10, 10⟩ : Box)].getD 0 defaultBox).y
              + ([(⟨2, 2, 10, 10⟩ : Box)].getD 0 defaultBox).h ∧
              v1.crossed_line = false then
            { v1 with crossed_line := true }
          else v1)) ∧
    matchVehicleStep [⟨100, 100, 10, 10⟩] 100 ⟨exStale, [], []⟩
        (0, ⟨⟨0, 0, 10, 10⟩, 0, false, ⟨0, 0, 10, 10⟩, false⟩) =
      ⟨exStale, [], []⟩ ∧
    lookupKey ([0].foldl (disappearStep 10 []) exStale.vehicles) 0 =
      (if 0 ∈ [0] ∧ 0 ∉ ([] : List Nat) then
        (lookupKey exStale.vehicles 0).bind (fun v =>
          if 10 < v.disappeared + 1 then none
          else some { v with disappeared := v.disappeared + 1 })
      else lookupKey exStale.vehicles 0) ∧
    (registerUnmatched [⟨2, 2, 10, 10⟩] 100 [] exStale).vehicles =
      exStale.vehicles ++ buildRegs 100 exStale.next_vehicle_id
        (selectedBoxes [⟨2, 2, 10, 10⟩] []) ∧
    lookupKey (buildRegs 100 5 [⟨2, 2, 10, 10⟩]) (5 + 0) =
      some (registeredRecord
        ([(⟨2, 2, 10, 10⟩ : Box)].getD 0 defaultBox) 100) := by
  obtain ⟨c1, c2, c3, c4, c5, c6, c7, c8, c9⟩ := tracker_update_greedy_matching
  exact ⟨c1 exStale [⟨2, 2, 10, 10⟩] 100 (by decide) (by decide),
    c2 exStale (by constructor <;> decide),
    c3 ⟨0, 0, 10, 10⟩ [⟨2, 2, 10, 10⟩] [] (3 / 10) 0 (by
      norm_num [bestMatch, bestMatchStep, calculateOverlap, defaultBox,
        List.range, List.range', List.foldl]),
    c4 ⟨0, 0, 10, 10⟩ [⟨100, 100, 10, 10⟩] [] (3 / 10) (by norm_num) (by
      norm_num [bestMatch, bestMatchStep, calculateOverlap, defaultBox,
        List.range, List.range', List.foldl]),
    c5 [⟨2, 2, 10, 10⟩] 100 ⟨exStale, [], []⟩
      (0, ⟨⟨0, 0, 10, 10⟩, 0, false, ⟨0, 0, 10, 10⟩, false⟩) 0 (by
      norm_num [bestMatch, bestMatchStep, calculateOverlap, defaultBox,
        List.range, List.range', List.foldl, exStale]),
    c6 [⟨100, 100, 10, 10⟩] 100 ⟨exStale, [], []⟩
      (0, ⟨⟨0, 0, 10, 10⟩, 0, false, ⟨0, 0, 10, 10⟩, false⟩) (by
      norm_num [bestMatch, bestMatchStep, calculateOverlap, defaultBox,
        List.range, List.range', List.foldl, exStale]),
    c7 10 [] [0] exStale.vehicles (by decide) (by decide) 0,
    c8 [⟨2, 2, 10, 10⟩] 100 [] exStale (by decide),
    c9 100 [⟨2, 2, 10, 10⟩] 5 0 (by decide)⟩

/-! ### `VehicleCounter` (vehicle_counting.py)

Timestamps (`time.time()` values in the source) are modelled as `ℚ`. -/

/-- The mutable state of a `VehicleCounter` instance. -/
structure CounterState where
  detection_line_position : ℚ
  vehicle_count : Nat
  counted_vehicles : List Nat
  count_history : List (ℚ × Nat)
  last_update_time : ℚ
deriving DecidableEq, Repr

/-- `VehicleCounter.__init__` (lines 11-22); the construction time stands
in for `time.time()`. -/
def initCounter (t : ℚ) (detectionLinePosition : ℚ := 3 / 5) : CounterState :=
  { detection_line_position := detectionLinePosition
    vehicle_count := 0
    counted_vehicles := []
    count_history := []
    last_update_time := t }

/-- The body of the loop of `VehicleCounter.update` (lines 43-51) for one
live vehicle: a not-yet-counted vehicle whose `crossed_line` flag is true
is added to the counted set, the count is incremented, and
`(current_time, new_count)` is appended to the history. -/
def counterStep (currentTime : ℚ) (st : CounterState) (e : Nat × Vehicle) :
    CounterState :=
  if e.1 ∉ st.counted_vehicles ∧ e.2.crossed_line = true then
    { st with
      counted_vehicles := setInsert st.counted_vehicles e.1
      vehicle_count := st.vehicle_count + 1
      count_history := st.count_history
        ++ [(currentTime, st.vehicle_count + 1)] }
  else st

/-- `VehicleCounter.update` (lines 24-56). The detection-line y-coordinate
computed on line 40 is never used by the counting logic and is omitted. -/
def counterUpdate (st : CounterState) (vehicles : List (Nat × Vehicle))
    (currentTime : ℚ) : CounterState :=
  let st1 := vehicles.foldl (counterStep currentTime) st
  { st1 with last_update_time := currentTime }

/-- The integer `VehicleCounter.update` returns. -/
def counterUpdateReturn (st : CounterState) (vehicles : List (Nat × Vehicle))
    (currentTime : ℚ) : Nat :=
  (counterUpdate st vehicles currentTime).vehicle_count

/-- `VehicleCounter.reset` (lines 122-129). -/
def counterReset (st : CounterState) (t : ℚ) : CounterState :=
  { st with
    vehicle_count := 0
    counted_vehicles := []
    count_history := []
    last_update_time := t }

/-- `VehicleCounter.get_count_rate` (lines 90-120): filter the history to
entries within `time_window` of now; with no entries return 0; with at
least two entries and positive time spread return the slope in vehicles
per minute; in the remaining cases (exactly one entry, or a non-positive
spread) fall back to `(vehicle_count / time_window) * 60` when the window
is positive, else 0 — the Python early returns become nested
conditionals here, duplicating the shared final fallback expression. -/
def getCountRate (st : CounterState) (currentTime : ℚ)
    (timeWindow : ℚ := 60) : ℚ :=
  let recentCounts := st.count_history.filter
    (fun e => currentTime - e.1 ≤ timeWindow)
  if recentCounts = [] then 0
  else if 2 ≤ recentCounts.length then
    let startEntry := recentCounts.headD (0, 0)
    let endEntry := recentCounts.getLastD (0, 0)
    let timeDiff := endEntry.1 - startEntry.1
    let countDiff := (endEntry.2 : ℚ) - (startEntry.2 : ℚ)
    if 0 < timeDiff then countDiff / timeDiff * 60
    else if 0 < timeWindow then (st.vehicle_count : ℚ) / timeWindow * 60
    else 0
  else if 0 < timeWindow then (st.vehicle_count : ℚ) / timeWindow * 60
  else 0

/-- The rate query as claim C3 words it: after filtering, ≥ 2 entries give
the slope, fewer than two give the fallback whenever the window is
positive (even when no entry at all remains), otherwise 0. -/
def claimedCountRate (st : CounterState) (currentTime : ℚ)
    (timeWindow : ℚ) : ℚ :=
  let recentCounts := st.count_history.filter
    (fun e => currentTime - e.1 ≤ timeWindow)
  if 2 ≤ recentCounts.length then
    ((recentCounts.getLastD (0, 0)).2 - ((recentCounts.headD (0, 0)).2 : ℚ))
      / ((recentCounts.getLastD (0, 0)).1 - (recentCounts.headD (0, 0)).1)
      * 60
  else if 0 < timeWindow then (st.vehicle_count : ℚ) / timeWindow * 60
  else 0

/-- The counter's reachable-state invariant: the counted set is
duplicate-free and the cumulative count is its size. -/
def CounterInv (st : CounterState) : Prop :=
  st.counted_vehicles.Nodup ∧
  st.vehicle_count = st.counted_vehicles.length

instance (st : CounterState) : Decidable (CounterInv st) := by
  unfold CounterInv
  infer_instance

lemma counterStep_cases (t : ℚ) (st : CounterState) (e : Nat × Vehicle) :
    (counterStep t st e = st ∧
      (e.1 ∈ st.counted_vehicles ∨ e.2.crossed_line = false)) ∨
    (e.1 ∉ st.counted_vehicles ∧ e.2.crossed_line = true ∧
      counterStep t st e = { st with
        counted_vehicles := st.counted_vehicles ++ [e.1]
        vehicle_count := st.vehicle_count + 1
        count_history := st.count_history
          ++ [(t, st.vehicle_count + 1)] }) := by
  unfold counterStep
  by_cases hc : e.1 ∉ st.counted_vehicles ∧ e.2.crossed_line = true
  · rw [if_pos hc]
    refine Or.inr ⟨hc.1, hc.2, ?_⟩
    rw [show setInsert st.counted_vehicles e.1
        = st.counted_vehicles ++ [e.1] from by
      unfold setInsert
      rw [if_neg hc.1]]
  · rw [if_neg hc]
    rw [not_and_or, not_not] at hc
    rcases hc with hc | hc
    · exact Or.inl ⟨rfl, Or.inl hc⟩
    · exact Or.inl ⟨rfl, Or.inr (by
        cases hb : e.2.crossed_line
        · rfl
        · exact absurd hb hc)⟩

lemma counterFold_spec (t : ℚ) (vehicles : List (Nat × Vehicle)) :
    ∀ st : CounterState, CounterInv st →
    CounterInv (vehicles.foldl (counterStep t) st) ∧
    st.vehicle_count ≤ (vehicles.foldl (counterStep t) st).vehicle_count ∧
    (∃ ev, (vehicles.foldl (counterStep t) st).count_history
        = st.count_history ++ ev ∧
      ev.length + st.vehicle_count
        = (vehicles.foldl (counterStep t) st).vehicle_count) ∧
    (∀ k, k ∈ (vehicles.foldl (counterStep t) st).counted_vehicles ↔
      k ∈ st.counted_vehicles ∨
        ∃ v, (k, v) ∈ vehicles ∧ v.crossed_line = true) := by
  induction vehicles with
  | nil =>
    intro st hInv
    refine ⟨hInv, le_refl _, ⟨[], by simp, by simp⟩, ?_⟩
    intro k
    simp
  | cons e rest ih =>
    intro st hInv
    rw [List.foldl_cons]
    have hstep : CounterInv (counterStep t st e) ∧
        st.vehicle_count ≤ (counterStep t st e).vehicle_count ∧
        (∃ ev0, (counterStep t st e).count_history
            = st.count_history ++ ev0 ∧
          ev0.length + st.vehicle_count
            = (counterStep t st e).vehicle_count) ∧
        (∀ k, k ∈ (counterStep t st e).counted_vehicles ↔
          k ∈ st.counted_vehicles ∨
            (k = e.1 ∧ e.2.crossed_line = true)) := by
      rcases counterStep_cases t st e with ⟨hc, hwhy⟩ | ⟨hnm, hcr, hc⟩
      · rw [hc]
        refine ⟨hInv, le_refl _, ⟨[], by simp, by simp⟩, ?_⟩
        intro k
        constructor
        · intro hk
          exact Or.inl hk
        · intro hk
          rcases hk with hk | ⟨rfl, hcr⟩
          · exact hk
          · rcases hwhy with hwhy | hwhy
            · exact hwhy
            · rw [hwhy] at hcr
              cases hcr
      · rw [hc]
        obtain ⟨hnd, hlen⟩ := hInv
        refine ⟨⟨?_, ?_⟩, Nat.le_succ _, ⟨[(t, st.vehicle_count + 1)],
          rfl, by
            show [(t, st.vehicle_count + 1)].length + st.vehicle_count
              = st.vehicle_count + 1
            rw [List.length_singleton]
            omega⟩, ?_⟩
        · show (st.counted_vehicles ++ [e.1]).Nodup
          rw [List.nodup_append]
          exact ⟨hnd, List.nodup_singleton _,
            fun a ha hb => hnm (List.mem_singleton.1 hb ▸ ha)⟩
        · show st.vehicle_count + 1 = (st.counted_vehicles ++ [e.1]).length
          rw [List.length_append, List.length_singleton]
          omega
        · intro k
          rw [show ({ st with
              counted_vehicles := st.counted_vehicles ++ [e.1]
              vehicle_count := st.vehicle_count + 1
              count_history := st.count_history
                ++ [(t, st.vehicle_count + 1)] }
              : CounterState).counted_vehicles
            = st.counted_vehicles ++ [e.1] from rfl]
          rw [List.mem_append, List.mem_singleton]
          constructor
          · intro hk
            rcases hk with hk | hk
            · exact Or.inl hk
            · exact Or.inr ⟨hk, hcr⟩
          · intro hk
            rcases hk with hk | ⟨rfl, _⟩
            · exact Or.inl hk
            · exact Or.inr rfl
    obtain ⟨hs1, hs2, ⟨ev0, hev0, hlen0⟩, hs4⟩ := hstep
    obtain ⟨i1, i2, ⟨ev1, hev1, hlen1⟩, i4⟩ := ih (counterStep t st e) hs1
    refine ⟨i1, hs2.trans i2, ⟨ev0 ++ ev1, ?_, ?_⟩, ?_⟩
    · rw [hev1, hev0, List.append_assoc]
    · rw [List.length_append]
      omega
    · intro k
      rw [i4 k, hs4 k]
      constructor
      · intro hk
        rcases hk with (hk | ⟨rfl, hcr⟩) | ⟨v, hv, hcr⟩
        · exact Or.inl hk
        · exact Or.inr ⟨e.2, List.mem_cons_self _ _, hcr⟩
        · exact Or.inr ⟨v, List.mem_cons_of_mem _ hv, hcr⟩
      · intro hk
        rcases hk with hk | ⟨v, hv, hcr⟩
        · exact Or.inl (Or.inl hk)
        · rcases List.mem_cons.1 hv with hv | hv
          · refine Or.inl (Or.inr ⟨?_, ?_⟩)
            · rw [← hv]
            · rw [show e.2 = ((k, v) : Nat × Vehicle).2 from by rw [hv]]
              exact hcr
          · exact Or.inr ⟨v, hv, hcr⟩

/-- C5: across updates (and resets) the cumulative count is monotone
non-decreasing and always equals the size of the duplicate-free
counted-identity set; an id enters the counted set exactly when it is
already there or appears in the live set with `crossed_line` true (so only
the first such appearance counts it), and each increment of the count
appends exactly one event to the history. -/
theorem counter_monotone_consistent (st : CounterState)
    (vehicles : List (Nat × Vehicle)) (t tr : ℚ) (k : Nat)
    (hInv : CounterInv st) :
    CounterInv (counterUpdate st vehicles t) ∧
    st.vehicle_count ≤ (counterUpdate st vehicles t).vehicle_count ∧
    (counterUpdate st vehicles t).vehicle_count
        = (counterUpdate st vehicles t).counted_vehicles.length ∧
    (∃ ev, (counterUpdate st vehicles t).count_history
        = st.count_history ++ ev ∧
      ev.length + st.vehicle_count
        = (counterUpdate st vehicles t).vehicle_count) ∧
    (k ∈ (counterUpdate st vehicles t).counted_vehicles ↔
      k ∈ st.counted_vehicles ∨
        ∃ v, (k, v) ∈ vehicles ∧ v.crossed_line = true) ∧
    CounterInv (counterReset st tr) ∧
    (counterReset st tr).vehicle_count = 0 ∧
    (counterReset st tr).counted_vehicles = [] ∧
    (counterReset st tr).count_history = [] := by
  obtain ⟨f1, f2, f3, f4⟩ := counterFold_spec t vehicles st hInv
  exact ⟨f1, f2, f1.2, f3, f4 k, ⟨List.nodup_nil, rfl⟩, rfl, rfl, rfl⟩

/-- A counter state as after one crossing was recorded at time 0. -/
def exCounter : CounterState :=
  { detection_line_position := 3 / 5
    vehicle_count := 1
    counted_vehicles := [7]
    count_history := [(0, 1)]
    last_update_time := 0 }

/-- Witness for C5 at `exCounter`: a frame with one new crossed vehicle
(id 9) and one not-crossed vehicle (id 12). -/
theorem counter_monotone_consistent_witness :
    CounterInv (counterUpdate exCounter
      [(9, ⟨⟨0, 90, 10, 10⟩, 0, true, ⟨0, 90, 10, 10⟩, false⟩),
        (12, ⟨⟨0, 0, 10, 10⟩, 0, false, ⟨0, 0, 10, 10⟩, false⟩)] 5) ∧
    exCounter.vehicle_count ≤ (counterUpdate exCounter
      [(9, ⟨⟨0, 90, 10, 10⟩, 0, true, ⟨0, 90, 10, 10⟩, false⟩),
        (12, ⟨⟨0, 0, 10, 10⟩, 0, false, ⟨0, 0, 10, 10⟩,
          false⟩)] 5).vehicle_count ∧
    (counterUpdate exCounter
      [(9, ⟨⟨0, 90, 10, 10⟩, 0, true, ⟨0, 90, 10, 10⟩, false⟩),
        (12, ⟨⟨0, 0, 10, 10⟩, 0, false, ⟨0, 0, 10, 10⟩,
          false⟩)] 5).vehicle_count
        = (counterUpdate exCounter
      [(9, ⟨⟨0, 90, 10, 10⟩, 0, true, ⟨0, 90, 10, 10⟩, false⟩),
        (12, ⟨⟨0, 0, 10, 10⟩, 0, false, ⟨0, 0, 10, 10⟩,
          false⟩)] 5).counted_vehicles.length ∧
    (∃ ev, (counterUpdate exCounter
      [(9, ⟨⟨0, 90, 10, 10⟩, 0, true, ⟨0, 90, 10, 10⟩, false⟩),
        (12, ⟨⟨0, 0, 10, 10⟩, 0, false, ⟨0, 0, 10, 10⟩,
          false⟩)] 5).count_history
        = exCounter.count_history ++ ev ∧
      ev.length + exCounter.vehicle_count
        = (counterUpdate exCounter
      [(9, ⟨⟨0, 90, 10, 10⟩, 0, true, ⟨0, 90, 10, 10⟩, false⟩),
        (12, ⟨⟨0, 0, 10, 10⟩, 0, false, ⟨0, 0, 10, 10⟩,
          false⟩)] 5).vehicle_count) ∧
    (9 ∈ (counterUpdate exCounter
      [(9, ⟨⟨0, 90, 10, 10⟩, 0, true, ⟨0, 90, 10, 10⟩, false⟩),
        (12, ⟨⟨0, 0, 10, 10⟩, 0, false, ⟨0, 0, 10, 10⟩,
          false⟩)] 5).counted_vehicles ↔
      9 ∈ exCounter.counted_vehicles ∨
        ∃ v, ((9 : Nat), v) ∈
          [(9, (⟨⟨0, 90, 10, 10⟩, 0, true, ⟨0, 90, 10, 10⟩, false⟩
            : Vehicle)),
            (12, ⟨⟨0, 0, 10, 10⟩, 0, false, ⟨0, 0, 10, 10⟩, false⟩)] ∧
          v.crossed_line = true) ∧
    CounterInv (counterReset exCounter 9) ∧
    (counterReset exCounter 9).vehicle_count = 0 ∧
    (counterReset exCounter 9).counted_vehicles = [] ∧
    (counterReset exCounter 9).count_history = [] :=
  counter_monotone_consistent exCounter
    [(9, ⟨⟨0, 90, 10, 10⟩, 0, true, ⟨0, 90, 10, 10⟩, false⟩),
      (12, ⟨⟨0, 0, 10, 10⟩, 0, false, ⟨0, 0, 10, 10⟩, false⟩)] 5 9 9
    (by constructor <;> decide)

/-- The rate query as the code actually behaves (claim C3 amended): an
empty filtered history returns 0 outright; at least two filtered entries
with a positive time spread give the slope; every remaining case (exactly
one entry, or two or more with non-positive spread) gives the fallback
`(count / window) * 60` when the window is positive and 0 otherwise. -/
def amendedCountRate (st : CounterState) (currentTime : ℚ)
    (timeWindow : ℚ) : ℚ :=
  let recentCounts := st.count_history.filter
    (fun e => currentTime - e.1 ≤ timeWindow)
  if recentCounts = [] then 0
  else if 2 ≤ recentCounts.length ∧
      0 < (recentCounts.getLastD (0, 0)).1 - (recentCounts.headD (0, 0)).1 then
    ((recentCounts.getLastD (0, 0)).2 - ((recentCounts.headD (0, 0)).2 : ℚ))
      / ((recentCounts.getLastD (0, 0)).1 - (recentCounts.headD (0, 0)).1)
      * 60
  else if 0 < timeWindow then (st.vehicle_count : ℚ) / timeWindow * 60
  else 0

/-- C3 (amended): `get_count_rate` agrees everywhere with the amended
description `amendedCountRate`; in particular a window holding exactly one
event takes the single-point fallback, not a division by zero. -/
theorem count_rate_characterization (st : CounterState)
    (currentTime timeWindow : ℚ) :
    getCountRate st currentTime timeWindow
      = amendedCountRate st currentTime timeWindow := by
  unfold getCountRate amendedCountRate
  set recentCounts := st.count_history.filter
    (fun e => currentTime - e.1 ≤ timeWindow) with hrc
  by_cases hempty : recentCounts = []
  · rw [if_pos hempty, if_pos hempty]
  · rw [if_neg hempty, if_neg hempty]
    by_cases hlen : 2 ≤ recentCounts.length
    · rw [if_pos hlen]
      by_cases hdiff : 0 < (recentCounts.getLastD (0, 0)).1
          - (recentCounts.headD (0, 0)).1
      · rw [if_pos hdiff, if_pos ⟨hlen, hdiff⟩]
      · have hna : ¬(2 ≤ recentCounts.length ∧
            0 < (recentCounts.getLastD (0, 0)).1
              - (recentCounts.headD (0, 0)).1) := fun hc => hdiff hc.2
        rw [if_neg hdiff, if_neg hna]
    · have hna : ¬(2 ≤ recentCounts.length ∧
          0 < (recentCounts.getLastD (0, 0)).1
            - (recentCounts.headD (0, 0)).1) := fun hc => hlen hc.1
      rw [if_neg hlen, if_neg hna]

/-- Counterexample to C3 as stated: with history `[(0, 1)]`, cumulative
count 1, now = 1000 and window = 60 the filtered history is empty, so the
code returns 0, while the claim's description returns the fallback
`(1 / 60) * 60 = 1`. -/
theorem count_rate_claim_false :
    getCountRate exCounter 1000 60 = 0 ∧
    claimedCountRate exCounter 1000 60 = 1 ∧
    getCountRate exCounter 1000 60 ≠ claimedCountRate exCounter 1000 60 := by
  refine ⟨?_, ?_, ?_⟩ <;>
    norm_num [getCountRate, claimedCountRate, exCounter, List.filter]

/-! ### `DistanceCalculator` (distance_calculation.py) and
`SpeedCalculator` (speed_calculation.py)

Pixel and metric quantities — Python floats — are modelled with `ℝ`, so
these definitions are `noncomputable`; the Euclidean distance genuinely
involves a square root. The `ValueError` of `pixel_to_meter` becomes an
`Except.error` carrying the message string, and Python exception
propagation becomes `Except` propagation. -/

/-- The `ValueError` message of `pixel_to_meter` and `meter_to_pixel`. -/
def referenceNotSetMsg : String :=
  "Les mesures de référence ne sont pas définies. Appelez set_reference() d'abord."

/-- The state of a `DistanceCalculator` instance. -/
structure DistanceCalculator where
  reference_width_pixels : Option ℝ
  reference_width_meters : Option ℝ
  pixels_per_meter : Option ℝ

/-- `DistanceCalculator.set_reference` (lines 25-35). -/
noncomputable def setReference (d : DistanceCalculator)
    (referenceWidthPixels referenceWidthMeters : ℝ) : DistanceCalculator :=
  { reference_width_pixels := some referenceWidthPixels
    reference_width_meters := some referenceWidthMeters
    pixels_per_meter := some (referenceWidthPixels / referenceWidthMeters) }

/-- `DistanceCalculator.pixel_to_meter` (lines 37-50): raises when the
reference measurements were never set. -/
noncomputable def pixelToMeter (d : DistanceCalculator)
    (pixelDistance : ℝ) : Except String ℝ :=
  match d.pixels_per_meter with
  | none => .error referenceNotSetMsg
  | some ppm => .ok (pixelDistance / ppm)

/-- The Euclidean pixel distance of line 79. -/
noncomputable def pixelDist (point1 point2 : ℤ × ℤ) : ℝ :=
  Real.sqrt (((point2.1 - point1.1) ^ 2 + (point2.2 - point1.2) ^ 2 : ℤ) : ℝ)

/-- `DistanceCalculator.calculate_distance` (lines 67-82). -/
noncomputable def calculateDistance (d : DistanceCalculator)
    (point1 point2 : ℤ × ℤ) : Except String ℝ :=
  pixelToMeter d (pixelDist point1 point2)

/-- The centroid of a bbox (speed_calculation.py, lines 66-69); Python
`//` is floor division. -/
def vehicleCenter (bbox : Box) : ℤ × ℤ :=
  (bbox.x + bbox.w.fdiv 2, bbox.y + bbox.h.fdiv 2)

/-- The per-vehicle record of `SpeedCalculator.vehicle_data`. -/
structure VehicleSpeedData where
  positions : List (ℤ × ℤ)
  times : List ℝ
  speeds : List ℝ

/-- `np.mean(l[-n:])` for `n = min 5 (length l)` (lines 102-103): the mean
of the last `n` entries. -/
noncomputable def meanLastN (l : List ℝ) (n : Nat) : ℝ :=
  (l.drop (l.length - n)).sum / (n : ℝ)

/-- The body of the per-vehicle loop of `SpeedCalculator.update`
(speed_calculation.py, lines 62-110) for one identity: `data` is the
identity's existing record (`none` for a first observation), the result
pairs the new record with the new smoothed-speed entry (`none` when the
entry `self.speeds[vehicle_id]` is left unchanged this call). A raised
`ValueError` from the distance conversion aborts with `.error`. -/
noncomputable def speedStep (dc : DistanceCalculator)
    (data : Option VehicleSpeedData) (currentPosition : ℤ × ℤ)
    (currentFrameTime : ℝ) (timeDelta : ℝ) :
    Except String (VehicleSpeedData × Option ℝ) :=
  match data with
  | none =>
    .ok (⟨[currentPosition], [currentFrameTime], []⟩, none)
  | some d =>
    match calculateDistance dc (d.positions.getLastD (0, 0))
        currentPosition with
    | .error e => .error e
    | .ok distanceMeters =>
      let timeElapsed :=
        if d.times ≠ [] then currentFrameTime - d.times.getLastD 0
        else timeDelta
      if 0 < timeElapsed then
        let speedKmh := distanceMeters / timeElapsed * 3.6
        let speeds1 := d.speeds ++ [speedKmh]
        let numMeasurements := min 5 speeds1.length
        let avgSpeed := meanLastN speeds1 numMeasurements
        .ok (⟨d.positions ++ [currentPosition],
          d.times ++ [currentFrameTime], speeds1⟩, some avgSpeed)
      else
        .ok (⟨d.positions ++ [currentPosition],
          d.times ++ [currentFrameTime], d.speeds⟩, none)

lemma calculateDistance_of_some (dc : DistanceCalculator) (c : ℝ)
    (p1 p2 : ℤ × ℤ) (hppm : dc.pixels_per_meter = some c) :
    calculateDistance dc p1 p2 = .ok (pixelDist p1 p2 / c) := by
  unfold calculateDistance pixelToMeter
  rw [hppm]

lemma speedStep_of_pos (dc : DistanceCalculator) (c : ℝ)
    (d : VehicleSpeedData) (pos : ℤ × ℤ) (t Δ : ℝ)
    (hppm : dc.pixels_per_meter = some c) (hts : d.times ≠ [])
    (hpos : 0 < t - d.times.getLastD 0) :
    speedStep dc (some d) pos t Δ =
      .ok (⟨d.positions ++ [pos], d.times ++ [t],
          d.speeds ++ [pixelDist (d.positions.getLastD (0, 0)) pos / c
            / (t - d.times.getLastD 0) * 3.6]⟩,
        some (meanLastN
          (d.speeds ++ [pixelDist (d.positions.getLastD (0, 0)) pos / c
            / (t - d.times.getLastD 0) * 3.6])
          (min 5 (d.speeds ++ [pixelDist (d.positions.getLastD (0, 0)) pos
            / c / (t - d.times.getLastD 0) * 3.6]).length))) := by
  unfold speedStep
  show ((match calculateDistance dc (d.positions.getLastD (0, 0)) pos with
    | Except.error e => Except.error e
    | Except.ok distanceMeters =>
      let timeElapsed :=
        if d.times ≠ [] then t - d.times.getLastD 0 else Δ
      if 0 < timeElapsed then
        let speedKmh := distanceMeters / timeElapsed * 3.6
        let speeds1 := d.speeds ++ [speedKmh]
        let numMeasurements := min 5 speeds1.length
        let avgSpeed := meanLastN speeds1 numMeasurements
        Except.ok (({ positions := d.positions ++ [pos], times := d.times ++ [t], speeds := speeds1 } : VehicleSpeedData), some avgSpeed)
      else
        Except.ok (({ positions := d.positions ++ [pos], times := d.times ++ [t], speeds := d.speeds } : VehicleSpeedData), none))
      : Except String (VehicleSpeedData × Option ℝ))
    = _
  rw [calculateDistance_of_some dc c _ pos hppm]
  show ((let timeElapsed :=
      if d.times ≠ [] then t - d.times.getLastD 0 else Δ
    if 0 < timeElapsed then
      let speedKmh := pixelDist (d.positions.getLastD (0, 0)) pos / c
        / timeElapsed * 3.6
      let speeds1 := d.speeds ++ [speedKmh]
      let numMeasurements := min 5 speeds1.length
      let avgSpeed := meanLastN speeds1 numMeasurements
      Except.ok (({ positions := d.positions ++ [pos], times := d.times ++ [t], speeds := speeds1 } : VehicleSpeedData), some avgSpeed)
    else
      Except.ok (({ positions := d.positions ++ [pos], times := d.times ++ [t], speeds := d.speeds } : VehicleSpeedData), none))
      : Except String (VehicleSpeedData × Option ℝ))
    = _
  rw [if_pos hts, if_pos hpos]

lemma speedStep_of_nonpos (dc : DistanceCalculator) (c : ℝ)
    (d : VehicleSpeedData) (pos : ℤ × ℤ) (t Δ : ℝ)
    (hppm : dc.pixels_per_meter = some c)
    (hng : ¬ 0 < (if d.times ≠ [] then t - d.times.getLastD 0 else Δ)) :
    speedStep dc (some d) pos t Δ =
      .ok (⟨d.positions ++ [pos], d.times ++ [t], d.speeds⟩, none) := by
  unfold speedStep
  show ((match calculateDistance dc (d.positions.getLastD (0, 0)) pos with
    | Except.error e => Except.error e
    | Except.ok distanceMeters =>
      let timeElapsed :=
        if d.times ≠ [] then t - d.times.getLastD 0 else Δ
      if 0 < timeElapsed then
        let speedKmh := distanceMeters / timeElapsed * 3.6
        let speeds1 := d.speeds ++ [speedKmh]
        let numMeasurements := min 5 speeds1.length
        let avgSpeed := meanLastN speeds1 numMeasurements
        Except.ok (({ positions := d.positions ++ [pos], times := d.times ++ [t], speeds := speeds1 } : VehicleSpeedData), some avgSpeed)
      else
        Except.ok (({ positions := d.positions ++ [pos], times := d.times ++ [t], speeds := d.speeds } : VehicleSpeedData), none))
      : Except String (VehicleSpeedData × Option ℝ))
    = _
  rw [calculateDistance_of_some dc c _ pos hppm]
  show ((let timeElapsed :=
      if d.times ≠ [] then t - d.times.getLastD 0 else Δ
    if 0 < timeElapsed then
      let speedKmh := pixelDist (d.positions.getLastD (0, 0)) pos / c
        / timeElapsed * 3.6
      let speeds1 := d.speeds ++ [speedKmh]
      let numMeasurements := min 5 speeds1.length
      let avgSpeed := meanLastN speeds1 numMeasurements
      Except.ok (({ positions := d.positions ++ [pos], times := d.times ++ [t], speeds := speeds1 } : VehicleSpeedData), some avgSpeed)
    else
      Except.ok (({ positions := d.positions ++ [pos], times := d.times ++ [t], speeds := d.speeds } : VehicleSpeedData), none))
      : Except String (VehicleSpeedData × Option ℝ))
    = _
  rw [if_neg hng]

lemma speedStep_of_pos_general (dc : DistanceCalculator) (c : ℝ)
    (d : VehicleSpeedData) (pos : ℤ × ℤ) (t Δ : ℝ)
    (hppm : dc.pixels_per_meter = some c)
    (hpos : 0 < (if d.times ≠ [] then t - d.times.getLastD 0 else Δ)) :
    speedStep dc (some d) pos t Δ =
      .ok (⟨d.positions ++ [pos], d.times ++ [t],
          d.speeds ++ [pixelDist (d.positions.getLastD (0, 0)) pos / c
            / (if d.times ≠ [] then t - d.times.getLastD 0 else Δ)
            * 3.6]⟩,
        some (meanLastN
          (d.speeds ++ [pixelDist (d.positions.getLastD (0, 0)) pos / c
            / (if d.times ≠ [] then t - d.times.getLastD 0 else Δ)
            * 3.6])
          (min 5 (d.speeds ++ [pixelDist (d.positions.getLastD (0, 0)) pos
            / c / (if d.times ≠ [] then t - d.times.getLastD 0 else Δ)
            * 3.6]).length))) := by
  unfold speedStep
  show ((match calculateDistance dc (d.positions.getLastD (0, 0)) pos with
    | Except.error e => Except.error e
    | Except.ok distanceMeters =>
      let timeElapsed :=
        if d.times ≠ [] then t - d.times.getLastD 0 else Δ
      if 0 < timeElapsed then
        let speedKmh := distanceMeters / timeElapsed * 3.6
        let speeds1 := d.speeds ++ [speedKmh]
        let numMeasurements := min 5 speeds1.length
        let avgSpeed := meanLastN speeds1 numMeasurements
        Except.ok (({ positions := d.positions ++ [pos], times := d.times ++ [t], speeds := speeds1 } : VehicleSpeedData), some avgSpeed)
      else
        Except.ok (({ positions := d.positions ++ [pos], times := d.times ++ [t], speeds := d.speeds } : VehicleSpeedData), none))
      : Except String (VehicleSpeedData × Option ℝ))
    = _
  rw [calculateDistance_of_some dc c _ pos hppm]
  show ((let timeElapsed :=
      if d.times ≠ [] then t - d.times.getLastD 0 else Δ
    if 0 < timeElapsed then
      let speedKmh := pixelDist (d.positions.getLastD (0, 0)) pos / c
        / timeElapsed * 3.6
      let speeds1 := d.speeds ++ [speedKmh]
      let numMeasurements := min 5 speeds1.length
      let avgSpeed := meanLastN speeds1 numMeasurements
      Except.ok (({ positions := d.positions ++ [pos], times := d.times ++ [t], speeds := speeds1 } : VehicleSpeedData), some avgSpeed)
    else
      Except.ok (({ positions := d.positions ++ [pos], times := d.times ++ [t], speeds := d.speeds } : VehicleSpeedData), none))
      : Except String (VehicleSpeedData × Option ℝ))
    = _
  rw [if_pos hpos]

/-- A calculator with the calibration factor set to 100 pixels per meter. -/
noncomputable def exCalibrated : DistanceCalculator :=
  { reference_width_pixels := some 100
    reference_width_meters := some 1
    pixels_per_meter := some 100 }

/-- A calculator whose reference measurements were never set. -/
def exUncalibrated : DistanceCalculator :=
  { reference_width_pixels := none
    reference_width_meters := none
    pixels_per_meter := none }

/-- C8: with no calibration factor, any pixel-to-metric conversion — and
hence the per-identity update step of any identity that already has a
recorded sample — fails with the reference-not-set `ValueError`; a first
observation performs no conversion and succeeds; with the factor set, the
step never raises this error. -/
theorem calibration_required (dc : DistanceCalculator) (pd : ℝ)
    (d : VehicleSpeedData) (pos p1 p2 : ℤ × ℤ) (t Δ : ℝ) (c : ℝ) :
    (dc.pixels_per_meter = none →
      pixelToMeter dc pd = .error referenceNotSetMsg ∧
      calculateDistance dc p1 p2 = .error referenceNotSetMsg ∧
      speedStep dc (some d) pos t Δ = .error referenceNotSetMsg) ∧
    speedStep dc none pos t Δ = .ok (⟨[pos], [t], []⟩, none) ∧
    (dc.pixels_per_meter = some c →
      ∃ r, speedStep dc (some d) pos t Δ = .ok r) := by
  refine ⟨?_, rfl, ?_⟩
  · intro hn
    have hp2 : ∀ x : ℝ, pixelToMeter dc x = .error referenceNotSetMsg := by
      intro x
      unfold pixelToMeter
      rw [hn]
    have hcd : calculateDistance dc (d.positions.getLastD (0, 0)) pos
        = .error referenceNotSetMsg := hp2 _
    refine ⟨hp2 pd, hp2 _, ?_⟩
    unfold speedStep
    show ((match calculateDistance dc (d.positions.getLastD (0, 0)) pos with
      | Except.error e => Except.error e
      | Except.ok distanceMeters =>
        let timeElapsed :=
          if d.times ≠ [] then t - d.times.getLastD 0 else Δ
        if 0 < timeElapsed then
          let speedKmh := distanceMeters / timeElapsed * 3.6
          let speeds1 := d.speeds ++ [speedKmh]
          let numMeasurements := min 5 speeds1.length
          let avgSpeed := meanLastN speeds1 numMeasurements
          Except.ok (({ positions := d.positions ++ [pos], times := d.times ++ [t], speeds := speeds1 } : VehicleSpeedData), some avgSpeed)
        else
          Except.ok (({ positions := d.positions ++ [pos], times := d.times ++ [t], speeds := d.speeds } : VehicleSpeedData), none))
        : Except String (VehicleSpeedData × Option ℝ))
      = _
    rw [hcd]
  · intro hppm
    by_cases hng : 0 < (if d.times ≠ [] then t - d.times.getLastD 0 else Δ)
    · exact ⟨_, speedStep_of_pos_general dc c d pos t Δ hppm hng⟩
    · exact ⟨_, speedStep_of_nonpos dc c d pos t Δ hppm hng⟩

/-- Witness for C8: an uncalibrated calculator fails on every conversion
and on a second observation, while a first observation and a calibrated
step succeed. -/
theorem calibration_required_witness :
    (pixelToMeter exUncalibrated 5 = .error referenceNotSetMsg ∧
      calculateDistance exUncalibrated (0, 0) (10, 0)
        = .error referenceNotSetMsg ∧
      speedStep exUncalibrated (some ⟨[(0, 0)], [0], []⟩) (10, 0) 1 2
        = .error referenceNotSetMsg) ∧
    speedStep exUncalibrated none (10, 0) 1 2
      = .ok (⟨[(10, 0)], [1], []⟩, none) ∧
    ∃ r, speedStep exCalibrated (some ⟨[(0, 0)], [0], []⟩) (10, 0) 1 2
      = .ok r :=
  ⟨(calibration_required exUncalibrated 5 ⟨[(0, 0)], [0], []⟩ (10, 0)
      (0, 0) (10, 0) 1 2 0).1 rfl,
    (calibration_required exUncalibrated 5 ⟨[(0, 0)], [0], []⟩ (10, 0)
      (0, 0) (10, 0) 1 2 0).2.1,
    (calibration_required exCalibrated 5 ⟨[(0, 0)], [0], []⟩ (10, 0)
      (0, 0) (10, 0) 1 2 100).2.2 rfl⟩

/-- C9: when the elapsed time for this identity is not strictly positive,
the per-identity step appends no instantaneous speed and leaves the
smoothed-speed entry unchanged, yet still appends the new position/time
sample; the division only ever happens under a strictly positive elapsed
time. -/
theorem elapsed_time_guard (dc : DistanceCalculator) (c : ℝ)
    (d : VehicleSpeedData) (pos : ℤ × ℤ) (t Δ : ℝ)
    (hppm : dc.pixels_per_meter = some c)
    (hng : ¬ 0 < (if d.times ≠ [] then t - d.times.getLastD 0 else Δ)) :
    speedStep dc (some d) pos t Δ =
      .ok (⟨d.positions ++ [pos], d.times ++ [t], d.speeds⟩, none) :=
  speedStep_of_nonpos dc c d pos t Δ hppm hng

/-- Witness for C9: a repeated timestamp (elapsed time 0) skips the speed
computation but still records the sample. -/
theorem elapsed_time_guard_witness :
    speedStep exCalibrated (some ⟨[(0, 0)], [0], []⟩) (10, 0) 0 5 =
      .ok (⟨[(0, 0)] ++ [(10, 0)], [0] ++ [0], []⟩, none) :=
  elapsed_time_guard exCalibrated 100 ⟨[(0, 0)], [0], []⟩ (10, 0) 0 5 rfl
    (by simp)

lemma pixelDist_ten : pixelDist (0, 0) (10, 0) = 10 := by
  unfold pixelDist
  norm_num
  rw [show (100 : ℝ) = 10 ^ 2 by norm_num]
  exact Real.sqrt_sq (by norm_num)

/-- C2: for an identity with a previous recorded sample, the per-identity
step of `SpeedCalculator.update` appends the instantaneous speed — the
Euclidean pixel distance between the previous and current centroids,
divided by the calibration factor, divided by the elapsed time since this
identity's own previous sample, times 3.6 — to the identity's speed
history and outputs the arithmetic mean of the last
`min 5 (history length)` entries as its smoothed speed; the result ignores
the global frame delta entirely; and with factor 100 px/m and a 10 px
displacement over 1/30 s the instantaneous speed is exactly 10.8 km/h. -/
theorem speed_per_identity (dc : DistanceCalculator) (c : ℝ)
    (d : VehicleSpeedData) (pos : ℤ × ℤ) (t Δ Δ' : ℝ)
    (hppm : dc.pixels_per_meter = some c) (hts : d.times ≠ [])
    (hpos : 0 < t - d.times.getLastD 0) :
    speedStep dc (some d) pos t Δ =
      .ok (⟨d.positions ++ [pos], d.times ++ [t],
          d.speeds ++ [pixelDist (d.positions.getLastD (0, 0)) pos / c
            / (t - d.times.getLastD 0) * 3.6]⟩,
        some (meanLastN
          (d.speeds ++ [pixelDist (d.positions.getLastD (0, 0)) pos / c
            / (t - d.times.getLastD 0) * 3.6])
          (min 5 (d.speeds ++ [pixelDist (d.positions.getLastD (0, 0)) pos
            / c / (t - d.times.getLastD 0) * 3.6]).length))) ∧
    speedStep dc (some d) pos t Δ = speedStep dc (some d) pos t Δ' ∧
    speedStep exCalibrated (some ⟨[(0, 0)], [0], []⟩)
        (vehicleCenter ⟨5, -5, 10, 10⟩) (1 / 30) Δ =
      .ok (⟨[(0, 0), (10, 0)], [0, 1 / 30], [(10.8 : ℝ)]⟩, some 10.8) := by
  refine ⟨speedStep_of_pos dc c d pos t Δ hppm hts hpos,
    (speedStep_of_pos dc c d pos t Δ hppm hts hpos).trans
      (speedStep_of_pos dc c d pos t Δ' hppm hts hpos).symm, ?_⟩
  have hvc : vehicleCenter ⟨5, -5, 10, 10⟩ = (10, 0) := by decide
  rw [hvc]
  rw [speedStep_of_pos exCalibrated 100 ⟨[(0, 0)], [0], []⟩ (10, 0)
    (1 / 30) Δ rfl (by simp) (by norm_num [List.getLastD])]
  rw [show List.getLastD [((0 : ℤ), (0 : ℤ))] (0, 0) = (0, 0) from rfl]
  rw [show List.getLastD [(0 : ℝ)] 0 = 0 from rfl]
  rw [pixelDist_ten]
  norm_num [meanLastN]

/-- Witness for C2 at the spec's concrete calibration: one prior sample at
the origin at time 0, current centroid (10, 0) at time 1/30; the global
frame deltas 7 and 8 play no role. -/
theorem speed_per_identity_witness :
    speedStep exCalibrated (some ⟨[(0, 0)], [0], []⟩)
        (vehicleCenter ⟨5, -5, 10, 10⟩) (1 / 30) 7 =
      .ok (⟨[(0, 0)] ++ [vehicleCenter ⟨5, -5, 10, 10⟩], [0] ++ [1 / 30],
          [] ++ [pixelDist (List.getLastD [(0, 0)] (0, 0))
            (vehicleCenter ⟨5, -5, 10, 10⟩) / 100
            / (1 / 30 - List.getLastD [(0 : ℝ)] 0) * 3.6]⟩,
        some (meanLastN
          ([] ++ [pixelDist (List.getLastD [(0, 0)] (0, 0))
            (vehicleCenter ⟨5, -5, 10, 10⟩) / 100
            / (1 / 30 - List.getLastD [(0 : ℝ)] 0) * 3.6])
          (min 5 ([] ++ [pixelDist (List.getLastD [(0, 0)] (0, 0))
            (vehicleCenter ⟨5, -5, 10, 10⟩) / 100
            / (1 / 30 - List.getLastD [(0 : ℝ)] 0) * 3.6]).length))) ∧
    speedStep exCalibrated (some ⟨[(0, 0)], [0], []⟩)
        (vehicleCenter ⟨5, -5, 10, 10⟩) (1 / 30) 7 =
      speedStep exCalibrated (some ⟨[(0, 0)], [0], []⟩)
        (vehicleCenter ⟨5, -5, 10, 10⟩) (1 / 30) 8 ∧
    speedStep exCalibrated (some ⟨[(0, 0)], [0], []⟩)
        (vehicleCenter ⟨5, -5, 10, 10⟩) (1 / 30) 7 =
      .ok (⟨[(0, 0), (10, 0)], [0, 1 / 30], [(10.8 : ℝ)]⟩, some 10.8) :=
  speed_per_identity exCalibrated 100 ⟨[(0, 0)], [0], []⟩
    (vehicleCenter ⟨5, -5, 10, 10⟩) (1 / 30) 7 8 rfl (by simp)
    (by norm_num [List.getLastD])

end VehicleSpeed
